import Mathlib

/-!
Shallow embedding of the tpc-visual-node-editor argument-grammar engine:
the identifier resolver and node factory (src/engine/nodeFactory.ts), the
argument walker (src/engine/argumentWalker.ts), and the code generator with
its connection-following value resolver (src/engine/codeGenerator.ts).

Conventions of the embedding:
* JS `undefined` / missing object fields become `Option`; a node's flat
  value map `Record<string, any>` becomes an association list
  `List (String × Value)` (keys are unique in all maps the app builds).
* Recursions that are unbounded in the source (the walker descends into
  rewritten copies of grammar nodes, the resolver and the traversal follow
  connections) take an explicit fuel argument; fuel is an artifact of the
  embedding and every wrapper passes a bound that dominates the recursion
  depth of the corresponding terminating JS run.
* JS truthiness tests on values are modelled by `truthy` / `orNE`.
-/

/-- Scalar values stored in a node instance's flat value map. -/
inductive Value : Type where
  | str (s : String)
  | bool (b : Bool)
  | num (n : Int)
deriving DecidableEq

/-- JS truthiness of a possibly-missing stored value (`!!v`). -/
def truthy : Option Value → Bool
  | none => false
  | some (.str s) => s != ""
  | some (.bool b) => b
  | some (.num n) => n != 0

/-- JS `v || 0` used for repeat/array counts; the app stores counts as numbers. -/
def vCount : Option Value → Int
  | some (.num n) => n
  | _ => 0

/-- JS `String(v)` on the scalars the engine stores. -/
def vToString : Value → String
  | .str s => s
  | .bool b => if b then "true" else "false"
  | .num n => toString n

/-- JS `a || b` on strings (empty string is falsy). -/
def orNE (a b : String) : String := if a == "" then b else a

/-- One grammar-schema node (the duck-typed `arg` objects of the source).
The source's single `content` field holds either an ordered list of child
nodes (`group` / container `block`) or one shared content node (`Array`);
the two shapes are split into `contentList` / `contentOne`.  The source's
`prefix` field is named `pfx` here. -/
inductive Arg : Type where
  | mk
    (type : String)
    (name : Option String)
    (value : Option String)
    (label : Option String)
    (optional : Bool)
    (repeatable : Bool)
    (is_identifier : Bool)
    (pfx : Option String)
    (separator : Option String)
    (delimiters : Option (String × String))
    (repeatable_joiner : Option String)
    (contentList : Option (List Arg))
    (contentOne : Option Arg)
    (options : Option (List Arg))
    (arguments : Option (List Arg))
    (array_parameter : Option Arg)

def Arg.type : Arg → String
  | .mk t _ _ _ _ _ _ _ _ _ _ _ _ _ _ _ => t

def Arg.name : Arg → Option String
  | .mk _ n _ _ _ _ _ _ _ _ _ _ _ _ _ _ => n

def Arg.value : Arg → Option String
  | .mk _ _ v _ _ _ _ _ _ _ _ _ _ _ _ _ => v

def Arg.label : Arg → Option String
  | .mk _ _ _ l _ _ _ _ _ _ _ _ _ _ _ _ => l

def Arg.optional : Arg → Bool
  | .mk _ _ _ _ o _ _ _ _ _ _ _ _ _ _ _ => o

def Arg.repeatable : Arg → Bool
  | .mk _ _ _ _ _ r _ _ _ _ _ _ _ _ _ _ => r

def Arg.is_identifier : Arg → Bool
  | .mk _ _ _ _ _ _ i _ _ _ _ _ _ _ _ _ => i

def Arg.pfx : Arg → Option String
  | .mk _ _ _ _ _ _ _ p _ _ _ _ _ _ _ _ => p

def Arg.separator : Arg → Option String
  | .mk _ _ _ _ _ _ _ _ s _ _ _ _ _ _ _ => s

def Arg.delimiters : Arg → Option (String × String)
  | .mk _ _ _ _ _ _ _ _ _ d _ _ _ _ _ _ => d

def Arg.repeatable_joiner : Arg → Option String
  | .mk _ _ _ _ _ _ _ _ _ _ j _ _ _ _ _ => j

def Arg.contentList : Arg → Option (List Arg)
  | .mk _ _ _ _ _ _ _ _ _ _ _ cl _ _ _ _ => cl

def Arg.contentOne : Arg → Option Arg
  | .mk _ _ _ _ _ _ _ _ _ _ _ _ co _ _ _ => co

def Arg.options : Arg → Option (List Arg)
  | .mk _ _ _ _ _ _ _ _ _ _ _ _ _ op _ _ => op

def Arg.arguments : Arg → Option (List Arg)
  | .mk _ _ _ _ _ _ _ _ _ _ _ _ _ _ ar _ => ar

def Arg.array_parameter : Arg → Option Arg
  | .mk _ _ _ _ _ _ _ _ _ _ _ _ _ _ _ ap => ap

/-- Spread-update `\x7b...arg, name: nm\x7d`. -/
def Arg.withName : Arg → Option String → Arg
  | .mk t _ v l o r i p s d j cl co op ar ap, nm => .mk t nm v l o r i p s d j cl co op ar ap

/-- Spread-update `\x7b...arg, type: ty\x7d`. -/
def Arg.withType : Arg → String → Arg
  | .mk _ n v l o r i p s d j cl co op ar ap, ty => .mk ty n v l o r i p s d j cl co op ar ap

/-- Spread-update `\x7b...arg, optional: b\x7d`. -/
def Arg.withOptional : Arg → Bool → Arg
  | .mk t n v l _ r i p s d j cl co op ar ap, b => .mk t n v l b r i p s d j cl co op ar ap

/-- Spread-update `\x7b...arg, repeatable: b\x7d`. -/
def Arg.withRepeatable : Arg → Bool → Arg
  | .mk t n v l o _ i p s d j cl co op ar ap, b => .mk t n v l o b i p s d j cl co op ar ap

/-- Field update used when building sample schemas. -/
def Arg.withValue : Arg → Option String → Arg
  | .mk t n _ l o r i p s d j cl co op ar ap, v => .mk t n v l o r i p s d j cl co op ar ap

/-- Field update used when building sample schemas. -/
def Arg.withLabel : Arg → Option String → Arg
  | .mk t n v _ o r i p s d j cl co op ar ap, l => .mk t n v l o r i p s d j cl co op ar ap

/-- Field update used when building sample schemas. -/
def Arg.withContentList : Arg → Option (List Arg) → Arg
  | .mk t n v l o r i p s d j _ co op ar ap, cl => .mk t n v l o r i p s d j cl co op ar ap

/-- Field update used when building sample schemas. -/
def Arg.withContentOne : Arg → Option Arg → Arg
  | .mk t n v l o r i p s d j cl _ op ar ap, co => .mk t n v l o r i p s d j cl co op ar ap

/-- Field update used when building sample schemas. -/
def Arg.withOptions : Arg → Option (List Arg) → Arg
  | .mk t n v l o r i p s d j cl co _ ar ap, op => .mk t n v l o r i p s d j cl co op ar ap

/-- Field update used when building sample schemas. -/
def Arg.withArguments : Arg → Option (List Arg) → Arg
  | .mk t n v l o r i p s d j cl co op _ ap, ar => .mk t n v l o r i p s d j cl co op ar ap

/-- Field update used when building sample schemas. -/
def Arg.withArrayParameter : Arg → Option Arg → Arg
  | .mk t n v l o r i p s d j cl co op ar _, ap => .mk t n v l o r i p s d j cl co op ar ap

/-- A grammar node with every field absent / false; sample schemas below are
built by updating it. -/
def argDefault : Arg :=
  .mk "" none none none false false false none none none none none none none none none

/-- Fallback identifier chain `item.name || item.value || item.type || ''`. -/
def getIdentifierFb (item : Arg) : String :=
  orNE (item.name.getD "") (orNE (item.value.getD "") item.type)

/-- nodeFactory.ts getIdentifier: a group named by its first literal keyword
child, otherwise the name / value / type fallback chain. -/
def getIdentifier (item : Arg) : String :=
  if item.type == "group" then
    match item.contentList with
    | some content =>
      if content.length > 0 then
        match content.find? (fun c => c.type == "keyword") with
        | some fk =>
          match fk.value with
          | some v => if v == "" then getIdentifierFb item else v
          | none => getIdentifierFb item
        | none => getIdentifierFb item
      else getIdentifierFb item
    | none => getIdentifierFb item
  else getIdentifierFb item

/-- Command definition (the JSON command description plus the factory's
additions); `base : some none` models a present-but-null `base` field, which
`buildNodeCode` distinguishes from an absent one via `hasOwnProperty`. -/
structure NodeDef : Type where
  command : Option String
  base : Option (Option String)
  subcommand : Option String
  array_parameter : Option Arg
  arguments : Option (List Arg)

/-- The full definition attached to an instance (nodeDef + source file path). -/
structure NodeDefinition : Type where
  nodeDef : NodeDef
  sourceFile : Option String

/-- A directional connection point; `ioDir` is the source's `io` field. -/
structure SocketDef : Type where
  id : String
  nodeId : String
  name : String
  label : String
  ioDir : String
  type : String
  dataType : String
deriving DecidableEq

/-- One placed node (types.ts NodeInstance); display name and canvas position
are irrelevant to the engine and omitted.  `inputs` / `outputs` are the
`sockets` record's two lists. -/
structure NodeInstance : Type where
  id : String
  definition : NodeDefinition
  inputs : List SocketDef
  outputs : List SocketDef
  values : List (String × Value)
  isExpanded : Bool
  isVisible : Bool

/-- A directed edge between two sockets (types.ts Connection; the unused
`id` and `resolvedValue` fields are omitted). -/
structure Connection : Type where
  fromNode : String
  fromSocket : String
  toNode : String
  toSocket : String

structure Graph : Type where
  nodes : List NodeInstance
  connections : List Connection

/-- `new Map(nodes.map(n => [n.id, n])).get(nid)`: the last node with the id
wins, `undefined` when absent. -/
def findNode (g : Graph) (nid : String) : Option NodeInstance :=
  g.nodes.foldl (fun acc n => if n.id == nid then some n else acc) none

/-- The `connectionsTo` map: last connection targeting the socket wins. -/
def connectionsTo (g : Graph) (sid : String) : Option Connection :=
  g.connections.foldl (fun acc c => if c.toSocket == sid then some c else acc) none

/-- The `connectionsFrom` map: all connections leaving the socket, in list order. -/
def connectionsFrom (g : Graph) (sid : String) : List Connection :=
  g.connections.filter (fun c => c.fromSocket == sid)

/-- JS `String.prototype.replace` with a plain-string pattern and empty
replacement: delete the first occurrence of the pattern. -/
def replaceFirstAux (pat : List Char) : List Char → List Char
  | [] => []
  | c :: rest =>
    if pat.isPrefixOf (c :: rest) then List.drop pat.length (c :: rest)
    else c :: replaceFirstAux pat rest

/-- `s.replace(pat, '')`. -/
def replaceFirst (s pat : String) : String := String.mk (replaceFirstAux pat.data s.data)

/-- `node.values[k]`. -/
def lookupValue (n : NodeInstance) (k : String) : Option Value := n.values.lookup k

/-- codeGenerator.ts getSocketValue (identical to the copy in App.tsx):
follow the single incoming connection of the socket `node.id ++ "-" ++ k`;
an existing source node is read through recursively, except that an
"Evaluate JS Code" source exposes its cached `_result` value; with no
connection or a missing source node the local value is returned.  The fuel
argument bounds the connection-chain length; with fuel exhausted the local
value is returned (unreachable on acyclic chains given the wrapper's bound). -/
def getSocketValueF (g : Graph) : Nat → NodeInstance → String → Option Value
  | 0, n, k => lookupValue n k
  | fuel+1, n, k =>
    match connectionsTo g (n.id ++ "-" ++ k) with
    | some c =>
      match findNode g c.fromNode with
      | some src =>
        if src.definition.nodeDef.command == some "Evaluate JS Code" then
          lookupValue src (replaceFirst c.fromSocket (c.fromNode ++ "-") ++ "_result")
        else
          getSocketValueF g fuel src (replaceFirst c.fromSocket (c.fromNode ++ "-"))
      | none => lookupValue n k
    | none => lookupValue n k

/-- The resolution chain starting at `(n, k)` reaches a non-recursive case
within `fuel` steps; this is the acyclicity certificate for `getSocketValueF`. -/
def gsvTerm (g : Graph) : Nat → NodeInstance → String → Bool
  | 0, _, _ => false
  | fuel+1, n, k =>
    match connectionsTo g (n.id ++ "-" ++ k) with
    | some c =>
      match findNode g c.fromNode with
      | some src =>
        if src.definition.nodeDef.command == some "Evaluate JS Code" then true
        else gsvTerm g fuel src (replaceFirst c.fromSocket (c.fromNode ++ "-"))
      | none => true
    | none => true

/-- The value resolver at the canonical bound: a chain that never repeats a
connection takes at most `connections.length + 1` steps. -/
def resolveValue (g : Graph) (n : NodeInstance) (k : String) : Option Value :=
  getSocketValueF g (g.connections.length + 1) n k

/-- The context record handed to every walker handler (argumentWalker.ts
WalkerContext).  The source record also carries the `walk` and `getValue`
closures; no handler in the repository reads them, so they are not stored. -/
structure WCtx : Type where
  node : NodeInstance
  arg : Arg
  pre : String
  key : String

/-- The pluggable handler set (argumentWalker.ts WalkerHandlers).  A handler
returning `none` models a JS handler returning `null`, which every consumer
treats as "omit". -/
structure WalkerHandlers (T : Type) : Type where
  onOptional : Option (WCtx → Bool → Option T → Option T) := none
  onRepeatable : Option (WCtx → List T → Int → Option T) := none
  onPrimitive : Option (WCtx → Option T) := none
  onKeyword : Option (WCtx → Option T) := none
  onChoice : Option (WCtx → Option Arg → Option T → Option T) := none
  onSubcommand : Option (WCtx → List T → Option T) := none
  onBlock : Option (WCtx → List T → Option T) := none
  onExecBlock : Option (WCtx → Option T) := none
  onGroup : Option (WCtx → List T → Option T) := none
  onArray : Option (WCtx → List T → Option T) := none
  onBase : Option (WCtx → Option T → Option T) := none

/-- Walk an indexed child list, dropping `null` results
(`.map(...).filter(r => r !== null)`). -/
def walkChildren {T : Type} (recur : Arg → String → Option T) :
    List Arg → (Nat → String) → Nat → List T
  | [], _, _ => []
  | a :: rest, mkPre, i =>
    match recur a (mkPre i) with
    | some r => r :: walkChildren recur rest mkPre (i+1)
    | none => walkChildren recur rest mkPre (i+1)

/-- The kind dispatch of argumentWalker.ts `_walk` (the `switch(arg.type)`),
with `recur` standing for `context.walk`. -/
def walkKind {T : Type} (recur : Arg → String → Option T)
    (handlers : WalkerHandlers T) (getValue : String → Option Value)
    (ctx : WCtx) : Option T :=
  let arg := ctx.arg
  let key := ctx.key
  match arg.type with
  | "String" | "Numeric" | "Variable" | "Switch" | "Condition" | "Expression"
  | "Value" | "Numeric..Numeric" =>
    match handlers.onPrimitive with
    | some h => h ctx
    | none => none
  | "assignment" | "keyword" =>
    match handlers.onKeyword with
    | some h => h ctx
    | none => none
  | "choice" =>
    match handlers.onChoice with
    | some h =>
      let selectedOption :=
        match getValue key with
        | some (.str s) => (arg.options.getD []).find? (fun o => getIdentifier o == s)
        | _ => none
      let childResult :=
        match selectedOption, getValue key with
        | some so, some (.str s) =>
          if s == "__none__" then none
          else recur (so.withName (some (getIdentifier so))) (key ++ "_")
        | _, _ => none
      h ctx selectedOption childResult
    | none => none
  | "block" =>
    match arg.contentList with
    | some l =>
      match handlers.onBlock with
      | some h => h ctx (walkChildren recur l (fun i => key ++ "_" ++ toString i ++ "_") 0)
      | none => none
    | none =>
      match handlers.onExecBlock with
      | some h => h ctx
      | none => none
  | "subcommand" =>
    match handlers.onSubcommand with
    | some h =>
      let c1 :=
        match arg.array_parameter with
        | some ap =>
          match recur (ap.withName (some "array_param")) (key ++ "_") with
          | some r => [r]
          | none => []
        | none => []
      let c2 :=
        match arg.arguments with
        | some l => walkChildren recur l (fun i => key ++ "_" ++ toString i ++ "_") 0
        | none => []
      h ctx (c1 ++ c2)
    | none => none
  | "group" =>
    match handlers.onGroup, arg.contentList with
    | some h, some l => h ctx (walkChildren recur l (fun i => ctx.pre ++ toString i ++ "_") 0)
    | _, _ => none
  | "Array" =>
    match handlers.onArray, arg.contentOne with
    | some h, some c =>
      let count := vCount (getValue (key ++ "_count"))
      let items := (List.range count.toNat).filterMap
        (fun i => recur (c.withRepeatable false) (key ++ "_" ++ toString i ++ "_"))
      h ctx items
    | _, _ =>
      match handlers.onPrimitive with
      | some h =>
        let arrayAsPrimitiveArg :=
          (arg.withType "String").withName (some (orNE (arg.name.getD "") "array"))
        h { ctx with arg := arrayAsPrimitiveArg }
      | none => none
  | "base" =>
    match handlers.onBase with
    | some h =>
      let apr :=
        match arg.array_parameter with
        | some ap => recur (ap.withName (some "array_param")) (key ++ "_")
        | none => none
      h ctx apr
    | none => none
  | _ => none

/-- argumentWalker.ts `_walk`: identifier guard, the optional wrapper, the
repeatable wrapper, then the kind dispatch.  Structurally recursive on fuel;
every recursive call of the source decrements it once. -/
def walkArgF {T : Type} (node : NodeInstance) (handlers : WalkerHandlers T)
    (getValue : String → Option Value) : Nat → Arg → String → Option T
  | 0, _, _ => none
  | fuel+1, arg, pre =>
    let name := getIdentifier arg
    if name == "" && !(arg.type == "group" || arg.type == "block" || arg.type == "Array") then
      none
    else
      let key := pre ++ name
      let ctx : WCtx := { node := node, arg := arg, pre := pre, key := key }
      let recur := fun a p => walkArgF node handlers getValue fuel a p
      let postOpt := fun (_ : Unit) =>
        if arg.repeatable then
          match handlers.onRepeatable with
          | some h =>
            let count := vCount (getValue (key ++ "_count"))
            let items := (List.range count.toNat).filterMap
              (fun i => recur ((arg.withRepeatable false).withOptional false)
                (pre ++ name ++ "_" ++ toString i ++ "_"))
            h ctx items count
          | none => walkKind recur handlers getValue ctx
        else walkKind recur handlers getValue ctx
      if arg.optional && arg.type != "choice" then
        let enabledKey := if arg.type == "keyword" then key else key ++ "_enabled"
        let isEnabled := truthy (getValue enabledKey)
        match handlers.onOptional with
        | some h =>
          let contentResult := if isEnabled then recur (arg.withOptional false) pre else none
          h ctx isEnabled contentResult
        | none => if isEnabled then postOpt () else none
      else postOpt ()

mutual

/-- Number of grammar nodes in a schema subtree (used only to size fuel). -/
def argSize : Arg → Nat
  | .mk _ _ _ _ _ _ _ _ _ _ _ cl co op ar ap =>
    1 + argSizeOL cl + argSizeO co + argSizeOL op + argSizeOL ar + argSizeO ap

def argSizeO : Option Arg → Nat
  | none => 0
  | some a => argSize a

def argSizeOL : Option (List Arg) → Nat
  | none => 0
  | some l => argSizeL l

def argSizeL : List Arg → Nat
  | [] => 0
  | a :: r => argSize a + argSizeL r

end

/-- Fuel bound for one top-level walk: the walker never recurses more than
three times per structural level of the grammar node (optional unwrap,
repeatable unwrap, kind descent), and rewritten copies only graft strings
derived from the node itself. -/
def walkFuel (a : Arg) : Nat := 4 * argSize a + 16

/-- argumentWalker.ts argumentWalker: the instance's leading array parameter
(qualified as `array_param`), then each top-level argument with its ordinal
prefix; `null` results are dropped. -/
def walkTopArgs {T : Type} (node : NodeInstance) (handlers : WalkerHandlers T)
    (getValue : String → Option Value) : List Arg → Nat → List T
  | [], _ => []
  | a :: rest, i =>
    (match walkArgF node handlers getValue (walkFuel a) a (toString i ++ "_") with
     | some r => [r]
     | none => []) ++ walkTopArgs node handlers getValue rest (i+1)

def argumentWalkerF {T : Type} (node : NodeInstance) (handlers : WalkerHandlers T)
    (getValue : String → Option Value) : List T :=
  let nd := node.definition.nodeDef
  (match nd.array_parameter with
   | some ap =>
     let a := ap.withName (some "array_param")
     match walkArgF node handlers getValue (walkFuel a) a "" with
     | some r => [r]
     | none => []
   | none => []) ++
  walkTopArgs node handlers getValue (nd.arguments.getD []) 0

/-- JS `s.includes(pat)`. -/
def containsSubAux (pat : List Char) : List Char → Bool
  | [] => pat.isEmpty
  | c :: rest => pat.isPrefixOf (c :: rest) || containsSubAux pat rest

def containsSub (s pat : String) : Bool := containsSubAux pat.data s.data

/-- JS `s.endsWith(post)`. -/
def endsWithStr (s post : String) : Bool := post.data.isSuffixOf s.data

/-- The socket-projection handler set of nodeFactory.ts generateNodeSockets
(walker result type: a list of sockets).  The `JSCode` / `RawCode` branches
of `onPrimitive` mirror the source even though the walker's kind dispatch
never produces those types (see the C7 analysis). -/
def socketWalkHandlers (nodeId : String) : WalkerHandlers (List SocketDef) where
  onPrimitive := some (fun ctx =>
    let arg := ctx.arg
    let key := ctx.key
    if arg.type == "JSCode" then
      some
        [⟨nodeId ++ "-" ++ key, nodeId, key, orNE (arg.label.getD "") (orNE (arg.name.getD "") "JS Code"), "input", "data", "Default"⟩,
         ⟨nodeId ++ "-" ++ key, nodeId, key, "Result", "output", "data", "Default"⟩]
    else if arg.type == "RawCode" then
      some
        [⟨nodeId ++ "-" ++ key, nodeId, key, orNE (arg.label.getD "") (orNE (arg.name.getD "") "Input"), "input", "data", "Default"⟩,
         ⟨nodeId ++ "-" ++ key, nodeId, key, "Output", "output", "data", "Default"⟩]
    else
      let lab := orNE (arg.label.getD "") (orNE (arg.name.getD "") arg.type)
      some
        [⟨nodeId ++ "-" ++ key, nodeId, key, lab, "input", "data", arg.type⟩,
         ⟨nodeId ++ "-" ++ key, nodeId, key, lab, "output", "data", arg.type⟩])
  onExecBlock := some (fun ctx =>
    some
      [⟨nodeId ++ "-" ++ ctx.key, nodeId, ctx.key, "do", "output", "exec", "Exec"⟩,
       ⟨nodeId ++ "-" ++ ctx.key, nodeId, ctx.key, "do", "input", "exec", "Exec"⟩])
  onRepeatable := some (fun ctx items _count =>
    let allSockets := items.flatten
    if ctx.arg.type == "RawCode" then
      let inputs := allSockets.filter (fun s => s.ioDir == "input")
      let outputs := allSockets.filter (fun s => s.ioDir == "output")
      let inputs2 := inputs.enum.map
        (fun p => { p.2 with label := "Code " ++ toString (p.1 + 1) ++ " In" })
      let outputs2 := outputs.enum.map
        (fun p => { p.2 with label := "Code " ++ toString (p.1 + 1) ++ " Out" })
      some (inputs2 ++ outputs2)
    else some allSockets)
  onChoice := some (fun _ _ childResult => some (childResult.getD []))
  onSubcommand := some (fun _ childResults => some childResults.flatten)
  onBlock := some (fun _ childResults => some childResults.flatten)
  onGroup := some (fun _ childResults => some childResults.flatten)
  onArray := some (fun _ itemResults => some itemResults.flatten)
  onBase := some (fun _ arrayParamResult => some (arrayParamResult.getD []))

/-- nodeFactory.ts generateNodeSockets: paired flow sockets for the four
exec-capable source-file categories, then (when expanded, or when the command
has no arguments) the walker-projected argument sockets, split by direction. -/
def generateNodeSockets (n : NodeInstance) : List SocketDef × List SocketDef :=
  let nodeDef := n.definition.nodeDef
  let isCat :=
    match n.definition.sourceFile with
    | some s =>
      containsSub s "/Event_Commands/" || containsSub s "/Directives/" ||
      containsSub s "/Meta_commands/" || containsSub s "/Utility/"
    | none => false
  let execs : List SocketDef :=
    if isCat then
      [⟨n.id ++ "-exec_out", n.id, "exec_out", "▶", "output", "exec", "Exec"⟩,
       ⟨n.id ++ "-exec_in", n.id, "exec_in", "▶", "input", "exec", "Exec"⟩]
    else []
  let gen :=
    if n.isExpanded || (match nodeDef.arguments with
                        | none => true
                        | some l => l.length == 0) then
      (argumentWalkerF n (socketWalkHandlers n.id) (fun k => lookupValue n k)).flatten
    else []
  let all := execs ++ gen
  (all.filter (fun s => s.ioDir == "input"), all.filter (fun s => s.ioDir == "output"))

/-- Outcome of one host-JS evaluation `new Function('return ' + code)()`:
a scalar result (`none` models `undefined` / `null`, collapsed by `?? ''`)
or a thrown error with its message. -/
inductive EvalOut : Type where
  | ok (result : Option Value)
  | err (msg : String)

/-- The host evaluator, treated as an oracle of the embedding: the source
hands arbitrary user text to the JS engine, which the embedding cannot model. -/
abbrev EvalJS : Type := String → EvalOut

/-- JS `msg.replace(/\s/g, ' ')`. -/
def collapseWS (s : String) : String :=
  String.mk (s.data.map (fun c => if c.isWhitespace then ' ' else c))

/-- The code-generation handler set (codeGenerator.ts codeGenHandlers),
closed over the graph, the evaluation oracle, the chain-traversal function
used by executable blocks, and the current indent. -/
def codeGenHandlers (g : Graph) (ev : EvalJS)
    (trav : Option NodeInstance → String → String) (indent : String) :
    WalkerHandlers String where
  onPrimitive := some (fun ctx =>
    let arg := ctx.arg
    if arg.type == "JSCode" then
      if ctx.node.definition.nodeDef.command == some "Evaluate JS Code" then none
      else
        match getSocketValueF g (g.connections.length + 1) ctx.node ctx.key with
        | some v =>
          if truthy (some v) then
            match ev (vToString v) with
            | .ok r => some (match r with | some rv => vToString rv | none => "")
            | .err m => some ("/* Error evaluating JS: " ++ collapseWS m ++ " */")
          else none
        | none => none
    else
      let val := getSocketValueF g (g.connections.length + 1) ctx.node ctx.key
      if arg.optional && (match val with
                          | none => true
                          | some (.str s) => s == ""
                          | _ => false) then none
      else
        let finalVal := match val with | none => Value.str "" | some v => v
        if (arg.pfx.getD "") != "" then some (arg.pfx.getD "" ++ vToString finalVal)
        else if arg.is_identifier then some (vToString finalVal)
        else if arg.type == "String" then some ("\"" ++ vToString finalVal ++ "\"")
        else if arg.type == "RawCode" then some (vToString finalVal)
        else some (vToString finalVal))
  onKeyword := some (fun ctx =>
    if ctx.arg.value == some ".hidden" then none
    else some (ctx.arg.value.getD ""))
  onChoice := some (fun _ _ childResult => childResult)
  onSubcommand := some (fun ctx childResults =>
    let nm := ctx.arg.name.getD ""
    let pr : String × List String :=
      match ctx.arg.array_parameter, childResults with
      | some _, x :: xs => ((if x != "" then nm ++ "[" ++ x ++ "]" else nm), xs)
      | some _, [] => (nm, [])
      | none, xs => (nm, xs)
    if pr.2.length > 0 then
      let hasBlock :=
        match ctx.arg.arguments with
        | some l => l.any (fun a => a.type == "block")
        | none => false
      let argsString := String.intercalate (if hasBlock then " " else ", ") pr.2
      some (if hasBlock then pr.1 ++ " " ++ argsString else pr.1 ++ "(" ++ argsString ++ ")")
    else some pr.1)
  onBlock := some (fun ctx childResults =>
    let namePart := if (ctx.arg.name.getD "") != "" then ctx.arg.name.getD "" ++ " " else ""
    let blockContent := String.intercalate ("\n" ++ indent ++ "  ") childResults
    if blockContent != "" then
      some (namePart ++ "\x7b\n" ++ indent ++ "  " ++ blockContent ++ "\n" ++ indent ++ "\x7d")
    else some (namePart ++ "\x7b\x7d"))
  onExecBlock := some (fun ctx =>
    match connectionsFrom g (ctx.node.id ++ "-" ++ ctx.key) with
    | c :: _ =>
      match findNode g c.toNode with
      | some nextNode =>
        some ("\x7b\n" ++ trav (some nextNode) (indent ++ "  ") ++ "\n" ++ indent ++ "\x7d")
      | none => some "\x7b\x7d"
    | [] => some "\x7b\x7d")
  onGroup := some (fun _ childResults => some (String.intercalate " " childResults))
  onArray := some (fun ctx itemResults =>
    let sep := orNE (ctx.arg.separator.getD "") ", "
    let dl := ctx.arg.delimiters.getD ("[", "]")
    some (dl.1 ++ String.intercalate sep itemResults ++ dl.2))
  onBase := some (fun ctx arrayParamResult =>
    let b := ctx.arg.name.getD ""
    match ctx.arg.array_parameter, arrayParamResult with
    | some _, some v => if v != "" then some (b ++ "[" ++ v ++ "]") else some b
    | _, _ => some b)
  onRepeatable := some (fun ctx items _count =>
    let hasBlockInArgs :=
      ctx.arg.type == "block" ||
      (ctx.arg.type == "subcommand" &&
        (match ctx.arg.arguments with
         | some l => l.any (fun a => a.type == "block")
         | none => false)) ||
      (ctx.arg.type == "group" &&
        (match ctx.arg.contentList with
         | some l => l.any (fun a => a.type == "block")
         | none => false))
    let joiner0 := ctx.arg.repeatable_joiner.getD ""
    let joiner :=
      if joiner0 == "" then (if hasBlockInArgs then "\n" ++ indent else " ")
      else if joiner0 == "\n" then "\n" ++ indent
      else joiner0
    some (String.intercalate joiner items))

/-- codeGenerator.ts buildNodeCode: the command's base / command literal,
its bracketed array-parameter text, its subcommand suffix, then the walked
argument fragments space-joined, at the given indent.  An "Evaluate JS Code"
node contributes no line.  (The `!def` guard of the source is unreachable
here: definitions are always present.) -/
def buildNodeCode (g : Graph) (ev : EvalJS)
    (trav : Option NodeInstance → String → String)
    (node : NodeInstance) (indent : String) : String :=
  if node.definition.nodeDef.command == some "Evaluate JS Code" then ""
  else
    let nd := node.definition.nodeDef
    let codeLine0 :=
      match nd.base with
      | some b => b.getD ""
      | none => nd.command.getD ""
    let argParts := argumentWalkerF node (codeGenHandlers g ev trav indent)
      (fun k => getSocketValueF g (g.connections.length + 1) node k)
    let pr : String × List String :=
      match nd.array_parameter, argParts with
      | some _, x :: xs => ((if x != "" then codeLine0 ++ "[" ++ x ++ "]" else codeLine0), xs)
      | some _, [] => (codeLine0, [])
      | none, xs => (codeLine0, xs)
    let codeLine1 := pr.1 ++ nd.subcommand.getD ""
    let argString := String.intercalate " " (pr.2.filter (fun s => s != ""))
    let codeLine2 :=
      if codeLine1 != "" && argString != "" then codeLine1 ++ " " ++ argString
      else if argString != "" then argString
      else codeLine1
    indent ++ codeLine2

/-- The flow successor followed by `traverse`: the first connection leaving
the node's `exec_out` socket, resolved to its target node (`none` for a
missing socket, no connection, or a dangling target). -/
def chainNext (g : Graph) (n : NodeInstance) : Option NodeInstance :=
  match n.outputs.find? (fun s => s.name == "exec_out") with
  | some s =>
    match connectionsFrom g s.id with
    | c :: _ => findNode g c.toNode
    | [] => none
  | none => none

/-- codeGenerator.ts traverse: render the rest of the chain first, skip the
current node's own text when it is hidden, otherwise newline-join the two
non-empty pieces.  Fuel bounds the chain length (one unit per node visited). -/
def traverseF (ev : EvalJS) (g : Graph) : Nat → Option NodeInstance → String → String
  | 0, _, _ => ""
  | _+1, none, _ => ""
  | fuel+1, some node, indent =>
    let nextCode := traverseF ev g fuel (chainNext g node) indent
    if !node.isVisible then nextCode
    else
      let cur := buildNodeCode g ev (fun o i => traverseF ev g fuel o i) node indent
      if cur != "" && nextCode != "" then cur ++ "\n" ++ nextCode
      else if cur != "" then cur
      else nextCode

/-- The traversal closure at a given remaining fuel, as handed to
`buildNodeCode` for executable blocks. -/
def travClosure (ev : EvalJS) (g : Graph) (fuel : Nat) :
    Option NodeInstance → String → String :=
  fun o i => traverseF ev g fuel o i

/-- codeGenerator.ts generate: every node owning an exec input socket that no
connection targets is a root; each root's chain is rendered, empty chain
texts are dropped, and the rest are joined with a blank line. -/
def generate (ev : EvalJS) (g : Graph) : String :=
  let startNodes := g.nodes.filter (fun n =>
    n.inputs.any (fun s => s.type == "exec") &&
    !(g.connections.any (fun c => c.toNode == n.id && endsWithStr c.toSocket "-exec_in")))
  String.intercalate "\n\n"
    ((startNodes.map (fun sn => traverseF ev g (g.connections.length + 1) (some sn) "")).filter
      (fun s => s != ""))

/-- The roots of the graph (codeGenerator.ts:229-232): every node owning an
exec input socket that no connection targets. -/
def rootNodes (g : Graph) : List NodeInstance :=
  g.nodes.filter (fun n =>
    n.inputs.any (fun s => s.type == "exec") &&
    !(g.connections.any (fun c => c.toNode == n.id && endsWithStr c.toSocket "-exec_in")))

/-- The rendered chain text of each root, in root order, before any
filtering or joining. -/
def rootChainTexts (ev : EvalJS) (g : Graph) : List String :=
  (rootNodes g).map (fun sn => traverseF ev g (g.connections.length + 1) (some sn) "")

/-- `if (defaultValues[k] === undefined) defaultValues[k] = v`. -/
def dvInsert (dv : List (String × Value)) (k : String) (v : Value) :
    List (String × Value) :=
  match dv.lookup k with
  | some _ => dv
  | none => dv ++ [(k, v)]

/-- The kinds that the defaults walk treats as primitive leaves
(nodeFactory.ts createNodeDefinition switch; note this list, unlike the
walker's dispatch, includes RawCode and JSCode). -/
def isPrimitiveKind (t : String) : Bool :=
  t == "String" || t == "Numeric" || t == "Variable" || t == "Switch" ||
  t == "Condition" || t == "Expression" || t == "Value" ||
  t == "Numeric..Numeric" || t == "RawCode" || t == "JSCode"

/-- The enabled-flag default of nodeFactory.ts processArgsForDefaults: any
optional non-choice argument seeds its flag key (the argument's own key for
a keyword, the `_enabled`-suffixed key otherwise) with false. -/
def dvFlagStep (arg : Arg) (key : String) (dv : List (String × Value)) :
    List (String × Value) :=
  if arg.optional && arg.type != "choice" then
    dvInsert dv (if arg.type == "keyword" then key else key ++ "_enabled") (.bool false)
  else dv

/-- The repeatable branch and kind switch of processArgsForDefaults, after
the flag step; `recur` stands for the recursive call on child lists. -/
def dvKindStep
    (recur : List Arg → String → List (String × Value) → List (String × Value))
    (arg : Arg) (key : String) (dv1 : List (String × Value)) :
    List (String × Value) :=
  if arg.repeatable then
    let dv2 := dvInsert dv1 (key ++ "_count") (.num (if arg.optional then 0 else 1))
    let count := vCount (dv2.lookup (key ++ "_count"))
    (List.range count.toNat).foldl
      (fun d j => recur [arg.withRepeatable false] (key ++ "_" ++ toString j ++ "_") d) dv2
  else if isPrimitiveKind arg.type then dvInsert dv1 key (.str "")
  else if arg.type == "keyword" then dvInsert dv1 key (.bool false)
  else if arg.type == "choice" then
    match dv1.lookup key with
    | some _ => dv1
    | none =>
      if arg.optional then dvInsert dv1 key (.str "__none__")
      else
        match (arg.options.getD []).head? with
        | some firstOpt =>
          let firstOptId := getIdentifier firstOpt
          recur [firstOpt.withName (some firstOptId)] (key ++ "_")
            (dvInsert dv1 key (.str firstOptId))
        | none => dv1
  else if arg.type == "subcommand" then
    let dvA :=
      match arg.array_parameter with
      | some ap => recur [ap.withName (some "array_param")] (key ++ "_") dv1
      | none => dv1
    match arg.arguments with
    | some l => recur l (key ++ "_") dvA
    | none => dvA
  else if arg.type == "block" then
    match arg.contentList with
    | some l => recur l (key ++ "_") dv1
    | none => dv1
  else if arg.type == "Array" then
    let dv2 := dvInsert dv1 (key ++ "_count") (.num (if arg.optional then 0 else 1))
    let count := vCount (dv2.lookup (key ++ "_count"))
    match arg.contentOne with
    | some c =>
      (List.range count.toNat).foldl
        (fun d j => recur [c] (key ++ "_" ++ toString j ++ "_") d) dv2
    | none => dv2
  else dv1

/-- One `forEach` body of nodeFactory.ts processArgsForDefaults: a group is
descended through under an ordinal prefix with no keys of its own; any other
argument runs the flag step and then the kind step under its key.  `i` is
the position of the argument in its list (used only for group descent). -/
def processOneStep
    (recur : List Arg → String → List (String × Value) → List (String × Value))
    (arg : Arg) (pre : String) (i : Nat) (dv : List (String × Value)) :
    List (String × Value) :=
  if arg.type == "group" then
    match arg.contentList with
    | some l => recur l (pre ++ toString i ++ "_") dv
    | none => dv
  else
    dvKindStep recur arg (pre ++ getIdentifier arg)
      (dvFlagStep arg (pre ++ getIdentifier arg) dv)

/-- nodeFactory.ts processArgsForDefaults over an argument list; one unit of
fuel is spent per argument and per recursive descent. -/
def processArgsF :
    Nat → List Arg → String → Nat → List (String × Value) → List (String × Value)
  | 0, _, _, _, dv => dv
  | _+1, [], _, _, dv => dv
  | fuel+1, arg :: rest, pre, i, dv =>
    processArgsF fuel rest pre (i+1)
      (processOneStep (fun as p d => processArgsF fuel as p 0 d) arg pre i dv)

/-- The default value map of nodeFactory.ts createNodeDefinition: the
top-level arguments (prefix empty) and then the array parameter, renamed
`array_param`.  The fuel bound dominates the walk's step count. -/
def createNodeDefinitionDV (nd : NodeDef) : List (String × Value) :=
  let fuel := 8 * (argSizeOL nd.arguments + argSizeO nd.array_parameter) + 32
  let dv := processArgsF fuel (nd.arguments.getD []) "" 0 []
  match nd.array_parameter with
  | some ap => processArgsF fuel [ap.withName (some "array_param")] "" 0 dv
  | none => dv

/-! Concrete sample schemas, instances and graphs used to exercise the
theorems below on closed inputs. -/

/-- An evaluation oracle that always yields `undefined`. -/
def evNone : EvalJS := fun _ => .ok none

/-- A second oracle, used to exercise evaluator-independence. -/
def evErr : EvalJS := fun _ => .err "boom"

def ndCmd (c : String) : NodeDef := ⟨some c, none, none, none, none⟩

def n1W : NodeInstance :=
  ⟨"n1", ⟨ndCmd "Wait", none⟩, [], [], [("0_x", .str "local1")], true, true⟩

def n2W : NodeInstance :=
  ⟨"n2", ⟨ndCmd "Wait", none⟩, [], [], [("0_x", .str "v")], true, true⟩

def cW : Connection := ⟨"n2", "n2-0_x", "n1", "n1-0_x"⟩

def gW : Graph := ⟨[n1W, n2W], [cW]⟩

def execOutS (nid : String) : SocketDef :=
  ⟨nid ++ "-exec_out", nid, "exec_out", "▶", "output", "exec", "Exec"⟩

def execInS (nid : String) : SocketDef :=
  ⟨nid ++ "-exec_in", nid, "exec_in", "▶", "input", "exec", "Exec"⟩

def nA2 : NodeInstance :=
  ⟨"A", ⟨ndCmd "A", none⟩, [execInS "A"], [execOutS "A"], [], true, true⟩

def nH2 : NodeInstance :=
  ⟨"H", ⟨ndCmd "H", none⟩, [execInS "H"], [execOutS "H"], [], true, false⟩

def nC2 : NodeInstance :=
  ⟨"C", ⟨ndCmd "C", none⟩, [execInS "C"], [], [], true, true⟩

def gC2 : Graph :=
  ⟨[nA2, nH2, nC2],
   [⟨"A", "A-exec_out", "H", "H-exec_in"⟩, ⟨"H", "H-exec_out", "C", "C-exec_in"⟩]⟩

/-- A graph whose only node has no sockets at all. -/
def gNoExec : Graph := ⟨[n1W], []⟩

def rawArgC7 : Arg :=
  ((argDefault.withType "RawCode").withName (some "code")).withRepeatable true

def defC7 : NodeDef := ⟨some "Generate Raw Code", none, none, none, some [rawArgC7]⟩

/-- A node instance over a repeatable raw-code argument with stored count 2
(the shape importParser.ts builds for "Generate Raw Code"). -/
def instC7 : NodeInstance :=
  ⟨"n1", ⟨defC7, none⟩, [], [], [("0_code_count", .num 2)], true, true⟩

def kwFoo : Arg := (argDefault.withType "keyword").withValue (some "foo")

/-- An optional group identified by its keyword child `foo`. -/
def grpOptC3 : Arg :=
  ((argDefault.withType "group").withOptional true).withContentList (some [kwFoo])

def defC3 : NodeDef := ⟨some "Cmd", none, none, none, some [grpOptC3]⟩

def strArgX : Arg := (argDefault.withType "String").withName (some "x")

def arrArgC9 : Arg :=
  (((argDefault.withType "Array").withName (some "a")).withRepeatable true).withContentOne
    (some strArgX)

/-- A handler set with no `onRepeatable`, counting array items. -/
def handlersC9 : WalkerHandlers Nat :=
  { onArray := some (fun _ items => some items.length),
    onPrimitive := some (fun _ => some 1) }

def emptyDefn : NodeDefinition := ⟨⟨none, none, none, none, none⟩, none⟩

def nodeE : NodeInstance := ⟨"n", emptyDefn, [], [], [], true, true⟩

def gvA9 : String → Option Value := fun _ => none

def gvB9 : String → Option Value :=
  fun k => if k == "0_a_count" then some (.num 2) else none

def optFast : Arg :=
  (argDefault.withType "group").withContentList
    (some [(argDefault.withType "keyword").withValue (some "fast")])

/-- An optional choice named `mode` with a single declared option `fast`. -/
def choiceArgS : Arg :=
  (((argDefault.withType "choice").withName (some "mode")).withOptional true).withOptions
    (some [optFast])

def handlersC4 : WalkerHandlers String :=
  { onChoice := some (fun _ _ child => child),
    onGroup := some (fun _ ch => some (String.intercalate " " ch)),
    onKeyword := some (fun ctx => some (ctx.arg.value.getD "")) }

def gvNoneSel : String → Option Value :=
  fun k => if k == "0_mode" then some (.str "__none__") else none

def gvFastSel : String → Option Value :=
  fun k => if k == "0_mode" then some (.str "fast") else none

def gEmpty : Graph := ⟨[], []⟩

def travNull : Option NodeInstance → String → String := fun _ _ => ""

def repArgC5 : Arg :=
  ((argDefault.withType "String").withName (some "x")).withRepeatable true

def handlersC5 : WalkerHandlers String :=
  { onRepeatable := some (fun _ items count =>
      some (String.intercalate "," items ++ "#" ++ toString count)),
    onPrimitive := some (fun ctx => some ctx.key) }

def gvC5 : String → Option Value :=
  fun k => if k == "0_x_count" then some (.num 2) else none

def kwBar : Arg := (argDefault.withType "keyword").withValue (some "bar")

/-- A repeatable group identified by its keyword child `bar`. -/
def grpRepC3 : Arg :=
  ((argDefault.withType "group").withRepeatable true).withContentList (some [kwBar])

def defC3r : NodeDef := ⟨some "Cmd2", none, none, none, some [grpRepC3]⟩

theorem gsvTerm_mono (g : Graph) :
    ∀ f n k, gsvTerm g f n k = true → gsvTerm g (f+1) n k = true := by
  intro f
  induction f with
  | zero => intro n k h; simp [gsvTerm] at h
  | succ f ih =>
    intro n k h
    simp only [gsvTerm] at h ⊢
    cases hc : connectionsTo g (n.id ++ "-" ++ k) with
    | none => simp
    | some c =>
      simp only [hc] at h ⊢
      cases hs : findNode g c.fromNode with
      | none => simp
      | some src =>
        simp only [hs] at h ⊢
        by_cases hj : (src.definition.nodeDef.command == some "Evaluate JS Code") = true
        · simp [hj]
        · simp only [Bool.not_eq_true] at hj
          simp only [hj, if_false] at h ⊢
          exact ih _ _ h

theorem gsv_stable (g : Graph) :
    ∀ f n k, gsvTerm g f n k = true →
      getSocketValueF g (f+1) n k = getSocketValueF g f n k := by
  intro f
  induction f with
  | zero => intro n k h; simp [gsvTerm] at h
  | succ f ih =>
    intro n k h
    simp only [gsvTerm] at h
    simp only [getSocketValueF]
    cases hc : connectionsTo g (n.id ++ "-" ++ k) with
    | none => rfl
    | some c =>
      simp only [hc] at h ⊢
      cases hs : findNode g c.fromNode with
      | none => rfl
      | some src =>
        simp only [hs] at h ⊢
        by_cases hj : (src.definition.nodeDef.command == some "Evaluate JS Code") = true
        · simp [hj]
        · simp only [Bool.not_eq_true] at hj
          simp only [hj, if_false] at h ⊢
          exact ih _ _ h

/-- C1: value resolution.  For a graph whose data-connection chain from the
given socket is acyclic (certified by `gsvTerm` at the resolver's own bound),
an incoming connection with an existing source node resolves to the source's
cached result value (key suffixed `_result`) when the source command is
"Evaluate JS Code", and otherwise to the recursive resolution of the source
socket's key on the source node; with no incoming connection, or a dangling
source node, resolution returns the node's locally stored value. -/
theorem claim_C1 (g : Graph) (n : NodeInstance) (k : String)
    (h : gsvTerm g (g.connections.length + 1) n k = true) :
    (∀ c src, connectionsTo g (n.id ++ "-" ++ k) = some c →
      findNode g c.fromNode = some src →
      resolveValue g n k =
        (if src.definition.nodeDef.command == some "Evaluate JS Code" then
          lookupValue src (replaceFirst c.fromSocket (c.fromNode ++ "-") ++ "_result")
        else resolveValue g src (replaceFirst c.fromSocket (c.fromNode ++ "-")))) ∧
    (connectionsTo g (n.id ++ "-" ++ k) = none →
      resolveValue g n k = lookupValue n k) ∧
    (∀ c, connectionsTo g (n.id ++ "-" ++ k) = some c →
      findNode g c.fromNode = none →
      resolveValue g n k = lookupValue n k) := by
  refine ⟨?_, ?_, ?_⟩
  · intro c src hc hs
    simp only [resolveValue, getSocketValueF, hc, hs]
    by_cases hj : (src.definition.nodeDef.command == some "Evaluate JS Code") = true
    · simp [hj]
    · simp only [Bool.not_eq_true] at hj
      simp only [hj, if_false]
      simp only [gsvTerm, hc, hs, hj, if_false] at h
      exact (gsv_stable g _ _ _ h).symm
  · intro hc
    simp [resolveValue, getSocketValueF, hc]
  · intro c hc hs
    simp [resolveValue, getSocketValueF, hc, hs]

/-- Witness for C1 on a two-node graph: `n1`'s socket `0_x` is fed by `n2`,
which is not an "Evaluate JS Code" node, so resolution follows the chain and
yields `n2`'s local value. -/
theorem claim_C1_witness :
    gsvTerm gW (gW.connections.length + 1) n1W "0_x" = true ∧
    resolveValue gW n1W "0_x" = resolveValue gW n2W "0_x" ∧
    resolveValue gW n2W "0_x" = some (.str "v") := by
  have h : gsvTerm gW (gW.connections.length + 1) n1W "0_x" = true := rfl
  have h2 := (claim_C1 gW n1W "0_x" h).1 cW n2W rfl rfl
  refine ⟨h, ?_, rfl⟩
  simpa using h2

/-- Helper: the string fallback chain is empty only when both links are. -/
theorem orNE_eq_empty_iff (a b : String) : orNE a b = "" ↔ a = "" ∧ b = "" := by
  unfold orNE
  by_cases h : (a == "") = true
  · have ha : a = "" := by simpa using h
    simp [h, ha]
  · have ha : a ≠ "" := by simpa using h
    simp [h, ha]

/-- C6: the identifier resolver.  A group whose first keyword child carries a
non-empty literal value is identified by that value; every non-group node is
identified by the name / literal value / type-tag preference chain; the
empty string comes back only when name, literal value and type tag are all
empty (totality itself is definitional: `getIdentifier` is a Lean function). -/
theorem claim_C6 (item : Arg) :
    (∀ content fk v, item.type = "group" → item.contentList = some content →
      content ≠ [] → content.find? (fun c => c.type == "keyword") = some fk →
      fk.value = some v → v ≠ "" → getIdentifier item = v) ∧
    (item.type ≠ "group" →
      getIdentifier item = orNE (item.name.getD "") (orNE (item.value.getD "") item.type)) ∧
    (getIdentifier item = "" →
      item.name.getD "" = "" ∧ item.value.getD "" = "" ∧ item.type = "") := by
  refine ⟨?_, ?_, ?_⟩
  · intro content fk v ht hcl hne hfind hv hvne
    have hlen : 0 < content.length := List.length_pos.mpr hne
    have hv' : (v == "") = false := beq_eq_false_iff_ne.mpr hvne
    simp [getIdentifier, ht, hcl, hfind, hv, hlen, hv']
  · intro ht
    have ht' : (item.type == "group") = false := beq_eq_false_iff_ne.mpr ht
    simp [getIdentifier, ht', getIdentifierFb]
  · intro h
    have hfb : getIdentifierFb item = "" →
        item.name.getD "" = "" ∧ item.value.getD "" = "" ∧ item.type = "" := by
      intro hf
      unfold getIdentifierFb at hf
      have h1 := (orNE_eq_empty_iff _ _).mp hf
      have h2 := (orNE_eq_empty_iff _ _).mp h1.2
      exact ⟨h1.1, h2.1, h2.2⟩
    by_cases ht : (item.type == "group") = true
    · have htg : item.type = "group" := by simpa using ht
      unfold getIdentifier at h
      rw [ht] at h
      simp only [if_true] at h
      cases hcl : item.contentList with
      | none => rw [hcl] at h; exact hfb h
      | some content =>
        rw [hcl] at h
        by_cases hlen : 0 < content.length
        · simp only [hlen, if_true] at h
          cases hfind : content.find? (fun c => c.type == "keyword") with
          | none => rw [hfind] at h; exact hfb h
          | some fk =>
            rw [hfind] at h
            dsimp only at h
            cases hv : fk.value with
            | none => rw [hv] at h; exact hfb h
            | some v =>
              rw [hv] at h
              dsimp only at h
              by_cases hve : (v == "") = true
              · rw [if_pos hve] at h; exact hfb h
              · rw [if_neg hve] at h
                exact absurd h (by simpa using hve)
        · simp only [hlen, if_false] at h
          exact hfb h
    · unfold getIdentifier at h
      simp only [Bool.not_eq_true] at ht
      rw [ht] at h
      simp only [Bool.false_eq_true, if_false] at h
      exact hfb h

/-- Witness for C6: the sample group is identified by its keyword child's
literal, and a plain primitive by its declared name. -/
theorem claim_C6_witness :
    getIdentifier grpOptC3 = "foo" ∧ getIdentifier strArgX = "x" := by
  constructor
  · exact (claim_C6 grpOptC3).1 [kwFoo] kwFoo "foo" rfl rfl (by simp) rfl rfl (by decide)
  · exact ((claim_C6 strArgX).2.1 (by decide)).trans rfl

/-- C5: the repeatable branch of the walker.  With an `onRepeatable` handler
registered, a (non-optional) repeatable node looks its count up under the
argument key suffixed `_count` (a missing value counting as 0), walks the
unwrapped non-repeatable copy once per index with the prefix re-qualified by
that index, and hands the ordered per-item results and the count to the
handler. -/
theorem claim_C5 {T : Type} (node : NodeInstance) (handlers : WalkerHandlers T)
    (getValue : String → Option Value) (fuel : Nat) (arg : Arg) (pre : String)
    (h : WCtx → List T → Int → Option T) (hrep : handlers.onRepeatable = some h)
    (hopt : arg.optional = false) (hr : arg.repeatable = true)
    (hname : getIdentifier arg ≠ "") :
    walkArgF node handlers getValue (fuel+1) arg pre =
      h { node := node, arg := arg, pre := pre, key := pre ++ getIdentifier arg }
        ((List.range (vCount (getValue (pre ++ getIdentifier arg ++ "_count"))).toNat).filterMap
          (fun i => walkArgF node handlers getValue fuel
            ((arg.withRepeatable false).withOptional false)
            (pre ++ getIdentifier arg ++ "_" ++ toString i ++ "_")))
        (vCount (getValue (pre ++ getIdentifier arg ++ "_count"))) := by
  have hname' : (getIdentifier arg == "") = false := beq_eq_false_iff_ne.mpr hname
  simp [walkArgF, hname', hopt, hr, hrep]

/-- Witness for C5: a repeatable `String` argument named `x` with stored
count 2 walks two index-qualified copies and joins their keys. -/
theorem claim_C5_witness :
    walkArgF nodeE handlersC5 gvC5 2 repArgC5 "0_" = some "0_x_0_x,0_x_1_x#2" := by
  have e := claim_C5 nodeE handlersC5 gvC5 1 repArgC5 "0_"
    (fun _ items count => some (String.intercalate "," items ++ "#" ++ toString count))
    rfl rfl rfl (by decide)
  rw [e]
  rfl

/-- C9: with no `onRepeatable` handler registered, a (non-optional)
repeatable node falls straight through to the kind dispatch under its
original non-index-qualified key, exactly as the same node would be
dispatched were it not repeatable.  (The repeatable branch's count lookup
and per-index walk are skipped; an `Array`-kind node's own count handling
inside the dispatch still runs, see the counterexample.) -/
theorem claim_C9 {T : Type} (node : NodeInstance) (handlers : WalkerHandlers T)
    (getValue : String → Option Value) (fuel : Nat) (arg : Arg) (pre : String)
    (hrep : handlers.onRepeatable = none)
    (hopt : arg.optional = false) (hr : arg.repeatable = true)
    (hname : getIdentifier arg ≠ "") :
    walkArgF node handlers getValue (fuel+1) arg pre =
      walkKind (fun a p => walkArgF node handlers getValue fuel a p) handlers getValue
        { node := node, arg := arg, pre := pre, key := pre ++ getIdentifier arg } := by
  have hname' : (getIdentifier arg == "") = false := beq_eq_false_iff_ne.mpr hname
  simp [walkArgF, hname', hopt, hr, hrep]

/-- Counterexample to C9's "the count key is never consulted and no
per-index recursion occurs": a repeatable `Array`-kind node dispatched
without an `onRepeatable` handler still reads the same `_count` key and
walks one copy of its content per index inside the `Array` dispatch, so two
value maps differing only at the count key walk differently. -/
theorem claim_C9_cex :
    walkArgF nodeE handlersC9 gvB9 5 arrArgC9 "0_" ≠
      walkArgF nodeE handlersC9 gvA9 5 arrArgC9 "0_" := by
  decide

/-- Witness for C9's theorem: the same repeatable `Array` node is dispatched
as an `Array`, producing the two per-index items of its own count handling. -/
theorem claim_C9_witness :
    walkArgF nodeE handlersC9 gvB9 5 arrArgC9 "0_" = some 2 := by
  have e := claim_C9 nodeE handlersC9 gvB9 4 arrArgC9 "0_" rfl rfl rfl (by decide)
  rw [e]
  rfl

/-- C4: choice dispatch.  A choice whose stored selection is the sentinel
`__none__` hands the handler a null child — no declared option is walked —
and under the code-generation handler set the whole choice contributes
nothing; a stored non-sentinel value matching a declared option's identifier
walks exactly that option (renamed to its identifier, like a group rooted at
the option) under the choice's key. -/
theorem claim_C4 {T : Type} (node : NodeInstance) (handlers : WalkerHandlers T)
    (getValue : String → Option Value) (fuel : Nat) (arg : Arg) (pre : String)
    (hc : WCtx → Option Arg → Option T → Option T) (hch : handlers.onChoice = some hc)
    (ht : arg.type = "choice") (hr : arg.repeatable = false)
    (hname : getIdentifier arg ≠ "") :
    (getValue (pre ++ getIdentifier arg) = some (.str "__none__") →
      walkArgF node handlers getValue (fuel+1) arg pre =
        hc { node := node, arg := arg, pre := pre, key := pre ++ getIdentifier arg }
          ((arg.options.getD []).find? (fun o => getIdentifier o == "__none__")) none) ∧
    (∀ v o, getValue (pre ++ getIdentifier arg) = some (.str v) → v ≠ "__none__" →
      (arg.options.getD []).find? (fun o => getIdentifier o == v) = some o →
      walkArgF node handlers getValue (fuel+1) arg pre =
        hc { node := node, arg := arg, pre := pre, key := pre ++ getIdentifier arg }
          (some o)
          (walkArgF node handlers getValue fuel (o.withName (some (getIdentifier o)))
            (pre ++ getIdentifier arg ++ "_"))) ∧
    (∀ g ev trav indent (gv : String → Option Value),
      gv (pre ++ getIdentifier arg) = some (.str "__none__") →
      walkArgF node (codeGenHandlers g ev trav indent) gv (fuel+1) arg pre = none) := by
  have hname' : (getIdentifier arg == "") = false := beq_eq_false_iff_ne.mpr hname
  refine ⟨?_, ?_, ?_⟩
  · intro hv
    cases hfind : (arg.options.getD []).find? (fun o => getIdentifier o == "__none__") with
    | none => simp [walkArgF, walkKind, hname', ht, hr, hch, hv, hfind]
    | some so => simp [walkArgF, walkKind, hname', ht, hr, hch, hv, hfind]
  · intro v o hv hvne hfo
    have hvne' : (v == "__none__") = false := beq_eq_false_iff_ne.mpr hvne
    simp [walkArgF, walkKind, hname', ht, hr, hch, hv, hfo, hvne']
  · intro g ev trav indent gv hv
    cases hfind : (arg.options.getD []).find? (fun o => getIdentifier o == "__none__") with
    | none => simp [walkArgF, walkKind, hname', ht, hr, codeGenHandlers, hv, hfind]
    | some so => simp [walkArgF, walkKind, hname', ht, hr, codeGenHandlers, hv, hfind]

/-- Witness for C4 on the sample optional choice `mode` with one option
`fast`: the sentinel yields a null child (and no generated text), the
selection `fast` walks the option itself. -/
theorem claim_C4_witness :
    walkArgF nodeE handlersC4 gvNoneSel 3 choiceArgS "0_" = none ∧
    walkArgF nodeE (codeGenHandlers gEmpty evNone travNull "") gvNoneSel 3 choiceArgS "0_" = none ∧
    walkArgF nodeE handlersC4 gvFastSel 3 choiceArgS "0_" = some "fast" := by
  refine ⟨?_, ?_, ?_⟩
  · have e := (claim_C4 nodeE handlersC4 gvNoneSel 2 choiceArgS "0_"
      (fun _ _ child => child) rfl rfl rfl (by decide)).1 rfl
    rw [e]
  · exact (claim_C4 nodeE handlersC4 gvNoneSel 2 choiceArgS "0_"
      (fun _ _ child => child) rfl rfl rfl (by decide)).2.2 gEmpty evNone travNull "" gvNoneSel rfl
  · have e := (claim_C4 nodeE handlersC4 gvFastSel 2 choiceArgS "0_"
      (fun _ _ child => child) rfl rfl rfl (by decide)).2.1 "fast" optFast rfl
      (by decide) rfl
    rw [e]
    rfl

/-- C7: evaluation at the failing input.  Socket projection over a node
whose grammar is one repeatable raw-code argument (`code`, stored count 2)
yields no sockets at all: the walker's kind dispatch has no `RawCode` case,
so every per-item walk returns null and `onRepeatable` receives an empty
socket list — the relabelling branch of nodeFactory.ts (and the ordinal
`Code i In` / `Code i Out` labels the claim describes) is unreachable. -/
theorem claim_C7_eval : generateNodeSockets instC7 = ([], []) := by decide

/-- Helper: traversing from a missing node renders nothing, at any fuel. -/
theorem traverseF_none (ev : EvalJS) (g : Graph) (indent : String) :
    ∀ f, traverseF ev g f none indent = ""
  | 0 => rfl
  | _+1 => rfl

/-- C2: hidden nodes in the flow chain.  An invisible node contributes no
text of its own while traversal continues to its flow successor; and in a
three-node chain A → H → C with H hidden and A, C visible and rendering
non-empty lines, the chain's text is exactly A's line, one newline, then
C's line. -/
theorem claim_C2 :
    (∀ (ev : EvalJS) (g : Graph) (fuel : Nat) (n : NodeInstance) (indent : String),
      n.isVisible = false →
      traverseF ev g (fuel+1) (some n) indent =
        traverseF ev g fuel (chainNext g n) indent) ∧
    (∀ (ev : EvalJS) (g : Graph) (f : Nat) (A H C : NodeInstance) (a c : String),
      chainNext g A = some H → chainNext g H = some C → chainNext g C = none →
      A.isVisible = true → H.isVisible = false → C.isVisible = true →
      buildNodeCode g ev (travClosure ev g (f+2)) A "" = a → a ≠ "" →
      buildNodeCode g ev (travClosure ev g f) C "" = c → c ≠ "" →
      traverseF ev g (f+3) (some A) "" = a ++ "\n" ++ c) := by
  constructor
  · intro ev g fuel n indent h
    rw [traverseF]
    simp [h]
  · intro ev g f A H C a c hAH hHC hCn hAv hHv hCv hA ha hC hc
    delta travClosure at hA hC
    have hCstep : traverseF ev g (f+1) (some C) "" = c := by
      rw [traverseF]
      simp only [hCn, traverseF_none, hCv, Bool.not_true, Bool.false_eq_true, if_false]
      rw [hC]
      simp [hc]
    have hHstep : traverseF ev g (f+2) (some H) "" = c := by
      rw [traverseF]
      simp only [hHC, hHv, Bool.not_false, if_true]
      exact hCstep
    rw [traverseF]
    simp only [hAH, hAv, Bool.not_true, Bool.false_eq_true, if_false]
    rw [hA, hHstep]
    simp [ha, hc]

/-- Witness for C2 on the concrete chain A → H → C with H hidden: the
generated chain text is exactly the two visible lines, newline-joined. -/
theorem claim_C2_witness : traverseF evNone gC2 3 (some nA2) "" = "A\nC" := by
  have e := claim_C2.2 evNone gC2 0 nA2 nH2 nC2 "A" "C"
    rfl rfl rfl rfl rfl rfl rfl (by decide) rfl (by decide)
  exact e.trans rfl

/-- C10: assembling the document.  A graph in which no node has an exec
input socket generates the empty string (there are no roots); and in
general, the generated document is exactly the blank-line join of the
per-root chain texts with the empty chain texts removed first — a list all
of whose elements are non-empty — so empty chains contribute no leading,
trailing or doubled separators to the join. -/
theorem claim_C10 :
    (∀ (ev : EvalJS) (g : Graph),
      (∀ n ∈ g.nodes, ∀ s ∈ n.inputs, s.type ≠ "exec") → generate ev g = "") ∧
    (∀ (ev : EvalJS) (g : Graph),
      generate ev g =
        String.intercalate "\n\n" ((rootChainTexts ev g).filter (fun s => s != "")) ∧
      ∀ x ∈ (rootChainTexts ev g).filter (fun s => s != ""), x ≠ "") := by
  constructor
  · intro ev g h
    unfold generate
    have hfil : g.nodes.filter (fun n =>
        n.inputs.any (fun s => s.type == "exec") &&
        !(g.connections.any (fun c => c.toNode == n.id && endsWithStr c.toSocket "-exec_in"))) = [] := by
      apply List.filter_eq_nil_iff.mpr
      intro n hn
      have hany : n.inputs.any (fun s => s.type == "exec") = false := by
        apply List.any_eq_false.mpr
        intro s hs
        simpa using h n hn s hs
      simp [hany]
    rw [hfil]
    rfl
  · intro ev g
    constructor
    · rfl
    · intro x hx
      have := List.of_mem_filter hx
      simpa using this

/-- Witness for C10: a graph whose single node has no sockets generates the
empty document, and the concrete A→hidden→C chain graph generates exactly
its one non-empty chain text with no extra separators. -/
theorem claim_C10_witness :
    generate evNone gNoExec = "" ∧ generate evNone gC2 = "A\nC" := by
  constructor
  · exact claim_C10.1 evNone gNoExec (by decide)
  · exact ((claim_C10.2 evNone gC2).1).trans rfl

/-- Projection helper for the walker's Array fallback rewrite. -/
theorem Arg.type_withType (a : Arg) (t : String) : (a.withType t).type = t := by
  cases a; rfl

theorem Arg.type_withName (a : Arg) (n : Option String) : (a.withName n).type = a.type := by
  cases a; rfl


/-- Child walks agree when the recursion they are handed agrees pointwise. -/
theorem walkChildren_congr {T : Type} (r1 r2 : Arg → String → Option T)
    (h : ∀ a p, r1 a p = r2 a p) :
    ∀ (l : List Arg) (mk : Nat → String) (i : Nat),
      walkChildren r1 l mk i = walkChildren r2 l mk i
  | [], _, _ => rfl
  | a :: rest, mk, i => by
    rw [walkChildren, walkChildren, h a (mk i)]
    cases r2 a (mk i) <;> simp [walkChildren_congr r1 r2 h rest mk (i+1)]

/-- The kind dispatch under the code-generation handler sets does not
distinguish evaluation oracles or extensionally equal traversal closures:
the only handler consulting the oracle is `onPrimitive`, whose oracle branch
is guarded by an arg type (`JSCode`) that the dispatch never sends there. -/
theorem walkKind_cg_congr (g : Graph) (ev₁ ev₂ : EvalJS)
    (t1 t2 : Option NodeInstance → String → String) (hT : ∀ o i, t1 o i = t2 o i)
    (indent : String) (gv : String → Option Value)
    (r1 r2 : Arg → String → Option String) (hr : ∀ a p, r1 a p = r2 a p)
    (ctx : WCtx) :
    walkKind r1 (codeGenHandlers g ev₁ t1 indent) gv ctx =
    walkKind r2 (codeGenHandlers g ev₂ t2 indent) gv ctx := by
  unfold walkKind
  simp only [codeGenHandlers]
  split <;> (try cases hco : ctx.arg.contentOne) <;>
    simp_all [hr, hT, walkChildren_congr r1 r2 hr, Arg.type_withType, Arg.type_withName]

/-- The code generator registers no optional handler. -/
theorem codeGenHandlers_onOptional (g : Graph) (ev : EvalJS)
    (t : Option NodeInstance → String → String) (i : String) :
    (codeGenHandlers g ev t i).onOptional = none := rfl

/-- The repeatable handler closes only over the indent. -/
theorem codeGenHandlers_onRepeatable_congr (g : Graph) (ev₁ ev₂ : EvalJS)
    (t1 t2 : Option NodeInstance → String → String) (i : String) :
    (codeGenHandlers g ev₁ t1 i).onRepeatable = (codeGenHandlers g ev₂ t2 i).onRepeatable := rfl

/-- The walker under the code-generation handler sets is oracle-independent. -/
theorem walkArgF_cg_congr (g : Graph) (ev₁ ev₂ : EvalJS)
    (t1 t2 : Option NodeInstance → String → String) (hT : ∀ o i, t1 o i = t2 o i)
    (indent : String) (node : NodeInstance) (gv : String → Option Value) :
    ∀ (fuel : Nat) (arg : Arg) (pre : String),
      walkArgF node (codeGenHandlers g ev₁ t1 indent) gv fuel arg pre =
      walkArgF node (codeGenHandlers g ev₂ t2 indent) gv fuel arg pre := by
  intro fuel
  induction fuel with
  | zero => intro arg pre; rfl
  | succ f ih =>
    intro arg pre
    have hk := fun ctx => walkKind_cg_congr g ev₁ ev₂ t1 t2 hT indent gv
      (fun a p => walkArgF node (codeGenHandlers g ev₁ t1 indent) gv f a p)
      (fun a p => walkArgF node (codeGenHandlers g ev₂ t2 indent) gv f a p)
      (fun a p => ih a p) ctx
    rw [walkArgF, walkArgF]
    simp only [hk]
    simp only [ih]
    simp only [codeGenHandlers_onOptional, codeGenHandlers_onRepeatable_congr g ev₁ ev₂ t1 t2 indent]

/-- Top-level argument walks are oracle-independent. -/
theorem walkTopArgs_cg_congr (g : Graph) (ev₁ ev₂ : EvalJS)
    (t1 t2 : Option NodeInstance → String → String) (hT : ∀ o i, t1 o i = t2 o i)
    (indent : String) (node : NodeInstance) (gv : String → Option Value) :
    ∀ (l : List Arg) (i : Nat),
      walkTopArgs node (codeGenHandlers g ev₁ t1 indent) gv l i =
      walkTopArgs node (codeGenHandlers g ev₂ t2 indent) gv l i
  | [], _ => rfl
  | a :: rest, i => by
    rw [walkTopArgs, walkTopArgs,
      walkArgF_cg_congr g ev₁ ev₂ t1 t2 hT indent node gv _ a _,
      walkTopArgs_cg_congr g ev₁ ev₂ t1 t2 hT indent node gv rest (i+1)]

/-- The full walker entry point is oracle-independent. -/
theorem argumentWalkerF_cg_congr (g : Graph) (ev₁ ev₂ : EvalJS)
    (t1 t2 : Option NodeInstance → String → String) (hT : ∀ o i, t1 o i = t2 o i)
    (indent : String) (node : NodeInstance) (gv : String → Option Value) :
    argumentWalkerF node (codeGenHandlers g ev₁ t1 indent) gv =
    argumentWalkerF node (codeGenHandlers g ev₂ t2 indent) gv := by
  unfold argumentWalkerF
  simp only [walkTopArgs_cg_congr g ev₁ ev₂ t1 t2 hT indent node gv,
    walkArgF_cg_congr g ev₁ ev₂ t1 t2 hT indent node gv]

/-- A node's rendered line is oracle-independent. -/
theorem buildNodeCode_cg_congr (g : Graph) (ev₁ ev₂ : EvalJS)
    (t1 t2 : Option NodeInstance → String → String) (hT : ∀ o i, t1 o i = t2 o i)
    (node : NodeInstance) (indent : String) :
    buildNodeCode g ev₁ t1 node indent = buildNodeCode g ev₂ t2 node indent := by
  unfold buildNodeCode
  rw [argumentWalkerF_cg_congr g ev₁ ev₂ t1 t2 hT indent node]

/-- Chain traversal is oracle-independent. -/
theorem traverseF_ev_indep (ev₁ ev₂ : EvalJS) (g : Graph) :
    ∀ (fuel : Nat) (o : Option NodeInstance) (indent : String),
      traverseF ev₁ g fuel o indent = traverseF ev₂ g fuel o indent := by
  intro fuel
  induction fuel with
  | zero => intro o indent; rfl
  | succ f ih =>
    intro o indent
    cases o with
    | none => rfl
    | some node =>
      rw [traverseF, traverseF]
      have hb := buildNodeCode_cg_congr g ev₁ ev₂
        (fun o i => traverseF ev₁ g f o i) (fun o i => traverseF ev₂ g f o i)
        (fun o i => ih o i) node indent
      simp only [hb]
      simp only [ih]

/-- C8: determinism of generation.  The embedded `generate` is a pure
function, so two calls on one snapshot are definitionally equal; the one
ingredient of the source that could break byte-identical repeatability —
the host JS evaluation of embedded code, modelled here as the oracle
argument — never influences the output, because the walker's kind dispatch
has no `JSCode` case and so the inline-evaluation branch is unreachable.
Hence the generated document is a function of the graph snapshot alone. -/
theorem claim_C8 (ev₁ ev₂ : EvalJS) (g : Graph) : generate ev₁ g = generate ev₂ g := by
  unfold generate
  simp only [traverseF_ev_indep ev₁ ev₂ g]

/-- A string is determined by its character data. -/
theorem strDataInj {s t : String} (h : s.data = t.data) : s = t := by
  cases s; cases t; exact congrArg String.mk h

/-- Appending distinct suffixes to one string yields distinct strings. -/
theorem str_app_right_ne (s : String) {a b : String} (h : a ≠ b) : s ++ a ≠ s ++ b := by
  intro he
  apply h
  have hd := congrArg String.data he
  rw [String.data_append, String.data_append] at hd
  exact strDataInj (List.append_cancel_left hd)

/-- Appending a non-empty suffix changes a string. -/
theorem str_self_ne_app (s : String) {t : String} (h : t ≠ "") : s ≠ s ++ t := by
  intro he
  apply h
  have hd := congrArg String.data he
  rw [String.data_append] at hd
  have hd2 : s.data ++ ([] : List Char) = s.data ++ t.data := by simpa using hd
  exact (strDataInj (List.append_cancel_left hd2).symm)

/-- A key bound in the left part of an association list stays bound. -/
theorem lookup_append_some (d e : List (String × Value)) (k : String) (v : Value)
    (h : d.lookup k = some v) : (d ++ e).lookup k = some v := by
  induction d with
  | nil => simp [List.lookup] at h
  | cons hd tl ih =>
    obtain ⟨k1, v1⟩ := hd
    rw [List.cons_append]
    by_cases hk : (k == k1) = true
    · simp only [List.lookup, hk] at h ⊢
      exact h
    · have hk' : (k == k1) = false := by simpa using hk
      simp only [List.lookup, hk'] at h ⊢
      exact ih h

/-- Lookup skips a left part that does not bind the key. -/
theorem lookup_append_none (d e : List (String × Value)) (k : String)
    (h : d.lookup k = none) : (d ++ e).lookup k = e.lookup k := by
  induction d with
  | nil => rfl
  | cons hd tl ih =>
    obtain ⟨k1, v1⟩ := hd
    rw [List.cons_append]
    by_cases hk : (k == k1) = true
    · simp [List.lookup, hk] at h
    · have hk' : (k == k1) = false := by simpa using hk
      simp only [List.lookup, hk'] at h ⊢
      exact ih h

/-- Insert-if-absent never changes an existing binding. -/
theorem dvInsert_preserves (dv : List (String × Value)) (k' : String) (v' : Value)
    (k : String) (v : Value) (h : dv.lookup k = some v) :
    (dvInsert dv k' v').lookup k = some v := by
  unfold dvInsert
  split
  · exact h
  · exact lookup_append_some _ _ _ _ h

/-- Insert-if-absent binds a previously absent key. -/
theorem dvInsert_self (dv : List (String × Value)) (k : String) (v : Value)
    (h : dv.lookup k = none) : (dvInsert dv k v).lookup k = some v := by
  unfold dvInsert
  rw [h]
  rw [lookup_append_none _ _ _ h]
  simp [List.lookup]

/-- Insert-if-absent leaves other keys alone. -/
theorem dvInsert_other (dv : List (String × Value)) (k' : String) (v' : Value)
    (k : String) (hne : k ≠ k') : (dvInsert dv k' v').lookup k = dv.lookup k := by
  unfold dvInsert
  split
  · rfl
  · cases hdv : dv.lookup k with
    | some w => exact lookup_append_some _ _ _ _ hdv
    | none =>
      rw [lookup_append_none _ _ _ hdv]
      simp [List.lookup, beq_eq_false_iff_ne.mpr hne]

/-- A fold whose step preserves a binding preserves it overall. -/
theorem foldl_lookup_preserves {A : Type} (step : List (String × Value) → A → List (String × Value))
    (k : String) (v : Value)
    (hstep : ∀ d a, d.lookup k = some v → (step d a).lookup k = some v) :
    ∀ (l : List A) (d : List (String × Value)),
      d.lookup k = some v → (l.foldl step d).lookup k = some v
  | [], _, h => h
  | a :: rest, d, h =>
    foldl_lookup_preserves step k v hstep rest (step d a) (hstep d a h)

/-- The flag step never changes an existing binding. -/
theorem dvFlagStep_preserves (arg : Arg) (key : String) (dv : List (String × Value))
    (k : String) (v : Value) (h : dv.lookup k = some v) :
    (dvFlagStep arg key dv).lookup k = some v := by
  unfold dvFlagStep
  split
  · exact dvInsert_preserves _ _ _ _ _ h
  · exact h

/-- The kind step never changes an existing binding, provided the
recursive processing it delegates to does not. -/
theorem dvKindStep_preserves
    (recur : List Arg → String → List (String × Value) → List (String × Value))
    (k : String) (v : Value)
    (hrec : ∀ as p d, d.lookup k = some v → (recur as p d).lookup k = some v)
    (arg : Arg) (key : String) (dv1 : List (String × Value))
    (h : dv1.lookup k = some v) :
    (dvKindStep recur arg key dv1).lookup k = some v := by
  unfold dvKindStep
  dsimp only
  split
  · apply foldl_lookup_preserves
    · intro d a hd
      exact hrec _ _ _ hd
    · exact dvInsert_preserves _ _ _ _ _ h
  · split
    · exact dvInsert_preserves _ _ _ _ _ h
    · split
      · exact dvInsert_preserves _ _ _ _ _ h
      · split
        · split
          · exact h
          · split
            · exact dvInsert_preserves _ _ _ _ _ h
            · split
              · exact hrec _ _ _ (dvInsert_preserves _ _ _ _ _ h)
              · exact h
        · split
          · cases hap : arg.array_parameter <;> cases har : arg.arguments <;>
              simp only [hap, har] <;>
              first
                | exact h
                | exact hrec _ _ _ h
                | exact hrec _ _ _ (hrec _ _ _ h)
          · split
            · split
              · exact hrec _ _ _ h
              · exact h
            · split
              · split
                · apply foldl_lookup_preserves
                  · intro d a hd
                    exact hrec _ _ _ hd
                  · exact dvInsert_preserves _ _ _ _ _ h
                · exact dvInsert_preserves _ _ _ _ _ h
              · exact h

/-- One defaults step never changes an existing binding. -/
theorem processOneStep_preserves
    (recur : List Arg → String → List (String × Value) → List (String × Value))
    (k : String) (v : Value)
    (hrec : ∀ as p d, d.lookup k = some v → (recur as p d).lookup k = some v)
    (arg : Arg) (pre : String) (i : Nat) (dv : List (String × Value))
    (h : dv.lookup k = some v) :
    (processOneStep recur arg pre i dv).lookup k = some v := by
  unfold processOneStep
  split
  · split
    · exact hrec _ _ _ h
    · exact h
  · exact dvKindStep_preserves recur k v hrec _ _ _ (dvFlagStep_preserves _ _ _ _ _ h)

/-- The defaults walk only adds bindings; it never overwrites one. -/
theorem processArgsF_preserves (k : String) (v : Value) :
    ∀ (fuel : Nat) (args : List Arg) (pre : String) (i : Nat)
      (dv : List (String × Value)),
      dv.lookup k = some v → (processArgsF fuel args pre i dv).lookup k = some v := by
  intro fuel
  induction fuel with
  | zero => intro args pre i dv h; simpa [processArgsF] using h
  | succ f ih =>
    intro args pre i dv h
    cases args with
    | nil => simpa [processArgsF] using h
    | cons a rest =>
      rw [processArgsF]
      exact ih rest _ _ _
        (processOneStep_preserves _ k v (fun as p d hd => ih as p 0 d hd) a pre i dv h)

/-- The defaults walk of an empty list is the identity. -/
theorem processArgsF_nil : ∀ (f : Nat) (pre : String) (i : Nat)
    (dv : List (String × Value)), processArgsF f [] pre i dv = dv
  | 0, _, _, _ => rfl
  | _+1, _, _, _ => rfl

/-- The defaults walk of a singleton is one step. -/
theorem processArgsF_singleton (f : Nat) (arg : Arg) (pre : String) (i : Nat)
    (dv : List (String × Value)) :
    processArgsF (f+1) [arg] pre i dv =
      processOneStep (fun as p d => processArgsF f as p 0 d) arg pre i dv := by
  rw [processArgsF, processArgsF_nil]

/-- A primitive kind tag is not the group tag. -/
theorem isPrimitiveKind_ne_group (t : String) (h : isPrimitiveKind t = true) :
    (t == "group") = false := by
  by_cases hg : t = "group"
  · subst hg
    exact absurd h (by decide)
  · exact beq_eq_false_iff_ne.mpr hg

/-- A primitive kind tag is not the keyword tag. -/
theorem isPrimitiveKind_ne_kw (t : String) (h : isPrimitiveKind t = true) :
    (t == "keyword") = false := by
  by_cases hg : t = "keyword"
  · subst hg
    exact absurd h (by decide)
  · exact beq_eq_false_iff_ne.mpr hg

/-- Rewriting the repeatable flag keeps the type. -/
theorem Arg.type_withRepeatable (a : Arg) (b : Bool) : (a.withRepeatable b).type = a.type := by
  cases a; rfl

/-- Rewriting the repeatable flag keeps the optional flag. -/
theorem Arg.optional_withRepeatable (a : Arg) (b : Bool) :
    (a.withRepeatable b).optional = a.optional := by
  cases a; rfl

/-- Rewriting the repeatable flag sets it. -/
theorem Arg.repeatable_withRepeatable (a : Arg) (b : Bool) :
    (a.withRepeatable b).repeatable = b := by
  cases a; rfl

/-- The identifier ignores the repeatable flag. -/
theorem getIdentifier_withRepeatable (a : Arg) (b : Bool) :
    getIdentifier (a.withRepeatable b) = getIdentifier a := by
  cases a; rfl

/-- An optional non-choice, non-keyword, non-group argument defaults its
enabled-flag key to false. -/
theorem default_enabled_flag (f : Nat) (arg : Arg) (pre : String) (i : Nat) (dv : List (String × Value))
    (hopt : arg.optional = true) (hch : arg.type ≠ "choice") (hkw : arg.type ≠ "keyword")
    (hgr : arg.type ≠ "group")
    (hfresh : dv.lookup (pre ++ getIdentifier arg ++ "_enabled") = none) :
    (processArgsF (f+1) [arg] pre i dv).lookup (pre ++ getIdentifier arg ++ "_enabled") =
      some (.bool false) := by
  rw [processArgsF_singleton]
  unfold processOneStep
  rw [if_neg (by simp [beq_eq_false_iff_ne.mpr hgr])]
  apply dvKindStep_preserves
  · intro as p d hd
    exact processArgsF_preserves _ _ f as p 0 d hd
  · unfold dvFlagStep
    rw [if_pos (by simp [hopt, hch])]
    rw [if_neg (by simp [beq_eq_false_iff_ne.mpr hkw])]
    exact dvInsert_self _ _ _ hfresh

/-- An index-qualified item key differs from the count key. -/
theorem item_ne_count (key nm : String) :
    key ++ "_" ++ toString (0:Nat) ++ "_" ++ nm ≠ key ++ "_count" := by
  intro h
  have h0 : toString (0:Nat) = "0" := rfl
  rw [h0] at h
  have hd := congrArg String.data h
  simp only [String.data_append] at hd
  rw [List.append_assoc, List.append_assoc, List.append_assoc] at hd
  have hc := List.append_cancel_left hd
  simp at hc

/-- An optional keyword defaults its own key (its flag) to false. -/
theorem default_keyword_flag_opt (f : Nat) (arg : Arg) (pre : String) (i : Nat) (dv : List (String × Value))
    (ht : arg.type = "keyword") (hopt : arg.optional = true)
    (hfresh : dv.lookup (pre ++ getIdentifier arg) = none) :
    (processArgsF (f+1) [arg] pre i dv).lookup (pre ++ getIdentifier arg) =
      some (.bool false) := by
  rw [processArgsF_singleton]
  unfold processOneStep
  rw [if_neg (by simp [ht])]
  apply dvKindStep_preserves
  · intro as p d hd
    exact processArgsF_preserves _ _ f as p 0 d hd
  · unfold dvFlagStep
    rw [if_pos (by simp [hopt, ht])]
    rw [if_pos (by simp [ht])]
    exact dvInsert_self _ _ _ hfresh

/-- A plain keyword defaults its key to false. -/
theorem default_keyword_plain (f : Nat) (arg : Arg) (pre : String) (i : Nat) (dv : List (String × Value))
    (ht : arg.type = "keyword") (hopt : arg.optional = false) (hrep : arg.repeatable = false)
    (hfresh : dv.lookup (pre ++ getIdentifier arg) = none) :
    (processArgsF (f+1) [arg] pre i dv).lookup (pre ++ getIdentifier arg) =
      some (.bool false) := by
  rw [processArgsF_singleton]
  unfold processOneStep
  rw [if_neg (by simp [ht])]
  unfold dvKindStep dvFlagStep
  simp only [ht, hopt, hrep, isPrimitiveKind]
  simp only [Bool.false_and, Bool.false_eq_true, if_false]
  norm_num
  exact dvInsert_self _ _ _ hfresh

/-- An optional choice defaults its selection to the none sentinel. -/
theorem default_choice_none (f : Nat) (arg : Arg) (pre : String) (i : Nat) (dv : List (String × Value))
    (ht : arg.type = "choice") (hopt : arg.optional = true) (hrep : arg.repeatable = false)
    (hfresh : dv.lookup (pre ++ getIdentifier arg) = none) :
    (processArgsF (f+1) [arg] pre i dv).lookup (pre ++ getIdentifier arg) =
      some (.str "__none__") := by
  have hfl : dvFlagStep arg (pre ++ getIdentifier arg) dv = dv := by
    unfold dvFlagStep
    rw [if_neg]
    simp [ht]
  rw [processArgsF_singleton]
  unfold processOneStep
  rw [if_neg (by simp [ht])]
  rw [hfl]
  unfold dvKindStep
  simp only [ht, hrep, Bool.false_eq_true, if_false]
  rw [if_neg (by decide : ¬(isPrimitiveKind "choice" = true))]
  rw [if_neg (by decide : ¬(("choice" == "keyword") = true))]
  rw [if_pos (by decide : ("choice" == "choice") = true)]
  rw [hfresh]
  simp only [hopt, if_true]
  exact dvInsert_self _ _ _ hfresh

/-- A repeatable non-group argument defaults its count key to 0 when
optional and 1 otherwise. -/
theorem default_repeatable_count (f : Nat) (arg : Arg) (pre : String) (i : Nat) (dv : List (String × Value))
    (hgr : arg.type ≠ "group") (hrep : arg.repeatable = true)
    (hfresh : dv.lookup (pre ++ getIdentifier arg ++ "_count") = none) :
    (processArgsF (f+1) [arg] pre i dv).lookup (pre ++ getIdentifier arg ++ "_count") =
      some (.num (if arg.optional then 0 else 1)) := by
  have hfl : (dvFlagStep arg (pre ++ getIdentifier arg) dv).lookup
      (pre ++ getIdentifier arg ++ "_count") = none := by
    unfold dvFlagStep
    split
    · rw [dvInsert_other]
      · exact hfresh
      · split
        · exact Ne.symm (str_self_ne_app _ (by decide : ("_count" : String) ≠ ""))
        · exact str_app_right_ne _ (by decide : ("_count" : String) ≠ "_enabled")
    · exact hfresh
  rw [processArgsF_singleton]
  unfold processOneStep
  rw [if_neg (by simp [beq_eq_false_iff_ne.mpr hgr])]
  unfold dvKindStep
  simp only [hrep, if_true]
  apply foldl_lookup_preserves
  · intro d a hd
    exact processArgsF_preserves _ _ f _ _ 0 d hd
  · exact dvInsert_self _ _ _ hfl

/-- An Array argument defaults its count key to 0 when optional and 1
otherwise. -/
theorem default_array_count (f : Nat) (arg : Arg) (pre : String) (i : Nat) (dv : List (String × Value))
    (ht : arg.type = "Array") (hrep : arg.repeatable = false)
    (hfresh : dv.lookup (pre ++ getIdentifier arg ++ "_count") = none) :
    (processArgsF (f+1) [arg] pre i dv).lookup (pre ++ getIdentifier arg ++ "_count") =
      some (.num (if arg.optional then 0 else 1)) := by
  have hfl : (dvFlagStep arg (pre ++ getIdentifier arg) dv).lookup
      (pre ++ getIdentifier arg ++ "_count") = none := by
    unfold dvFlagStep
    split
    · rw [dvInsert_other]
      · exact hfresh
      · split
        · exact Ne.symm (str_self_ne_app _ (by decide : ("_count" : String) ≠ ""))
        · exact str_app_right_ne _ (by decide : ("_count" : String) ≠ "_enabled")
    · exact hfresh
  rw [processArgsF_singleton]
  unfold processOneStep
  rw [if_neg (by simp [ht])]
  unfold dvKindStep
  simp only [ht, hrep, Bool.false_eq_true, if_false]
  rw [if_neg (by decide : ¬(isPrimitiveKind "Array" = true))]
  rw [if_neg (by decide : ¬(("Array" == "keyword") = true))]
  rw [if_neg (by decide : ¬(("Array" == "choice") = true))]
  rw [if_neg (by decide : ¬(("Array" == "subcommand") = true))]
  rw [if_neg (by decide : ¬(("Array" == "block") = true))]
  rw [if_pos (by decide : ("Array" == "Array") = true)]
  cases hco : arg.contentOne with
  | some c =>
    simp only [hco]
    apply foldl_lookup_preserves
    · intro d a hd
      exact processArgsF_preserves _ _ f _ _ 0 d hd
    · exact dvInsert_self _ _ _ hfl
  | none =>
    simp only [hco]
    exact dvInsert_self _ _ _ hfl

/-- A non-repeatable primitive defaults its key to the empty string. -/
theorem default_primitive_empty (f : Nat) (arg : Arg) (pre : String) (i : Nat) (dv : List (String × Value))
    (hp : isPrimitiveKind arg.type = true) (hrep : arg.repeatable = false)
    (hfresh : dv.lookup (pre ++ getIdentifier arg) = none) :
    (processArgsF (f+1) [arg] pre i dv).lookup (pre ++ getIdentifier arg) =
      some (.str "") := by
  have hfl : (dvFlagStep arg (pre ++ getIdentifier arg) dv).lookup
      (pre ++ getIdentifier arg) = none := by
    unfold dvFlagStep
    split
    · rw [if_neg (by simp [isPrimitiveKind_ne_kw _ hp])]
      rw [dvInsert_other]
      · exact hfresh
      · exact str_self_ne_app _ (by decide : ("_enabled" : String) ≠ "")
    · exact hfresh
  rw [processArgsF_singleton]
  unfold processOneStep
  rw [if_neg (by simp [isPrimitiveKind_ne_group _ hp])]
  unfold dvKindStep
  simp only [hrep, Bool.false_eq_true, if_false]
  rw [if_pos hp]
  exact dvInsert_self _ _ _ hfl

/-- A required choice defaults its selection to the first declared
option's identifier. -/
theorem default_choice_first (f : Nat) (arg : Arg) (pre : String) (i : Nat) (dv : List (String × Value))
    (o : Arg) (rest : List Arg)
    (ht : arg.type = "choice") (hopt : arg.optional = false) (hrep : arg.repeatable = false)
    (hopts : arg.options = some (o :: rest))
    (hfresh : dv.lookup (pre ++ getIdentifier arg) = none) :
    (processArgsF (f+1) [arg] pre i dv).lookup (pre ++ getIdentifier arg) =
      some (.str (getIdentifier o)) := by
  have hfl : dvFlagStep arg (pre ++ getIdentifier arg) dv = dv := by
    unfold dvFlagStep
    rw [if_neg]
    simp [ht]
  rw [processArgsF_singleton]
  unfold processOneStep
  rw [if_neg (by simp [ht])]
  rw [hfl]
  unfold dvKindStep
  simp only [ht, hrep, Bool.false_eq_true, if_false]
  rw [if_neg (by decide : ¬(isPrimitiveKind "choice" = true))]
  rw [if_neg (by decide : ¬(("choice" == "keyword") = true))]
  rw [if_pos (by decide : ("choice" == "choice") = true)]
  rw [hfresh]
  simp only [hopt, Bool.false_eq_true, if_false, hopts, Option.getD_some, List.head?_cons]
  exact processArgsF_preserves _ _ f _ _ 0 _ (dvInsert_self _ _ _ hfresh)

/-- A required choice recursively materializes its first option's own
defaults under the choice key. -/
theorem default_choice_materializes (f : Nat) (arg : Arg) (pre : String) (i : Nat) (dv : List (String × Value))
    (o : Arg) (rest : List Arg)
    (ht : arg.type = "choice") (hopt : arg.optional = false) (hrep : arg.repeatable = false)
    (hopts : arg.options = some (o :: rest))
    (hfresh : dv.lookup (pre ++ getIdentifier arg) = none) :
    processArgsF (f+1) [arg] pre i dv =
      processArgsF f [o.withName (some (getIdentifier o))] (pre ++ getIdentifier arg ++ "_") 0
        (dvInsert dv (pre ++ getIdentifier arg) (.str (getIdentifier o))) := by
  have hfl : dvFlagStep arg (pre ++ getIdentifier arg) dv = dv := by
    unfold dvFlagStep
    rw [if_neg]
    simp [ht]
  rw [processArgsF_singleton]
  unfold processOneStep
  rw [if_neg (by simp [ht])]
  rw [hfl]
  unfold dvKindStep
  simp only [ht, hrep, Bool.false_eq_true, if_false]
  rw [if_neg (by decide : ¬(isPrimitiveKind "choice" = true))]
  rw [if_neg (by decide : ¬(("choice" == "keyword") = true))]
  rw [if_pos (by decide : ("choice" == "choice") = true)]
  rw [hfresh]
  simp only [hopt, Bool.false_eq_true, if_false, hopts, Option.getD_some, List.head?_cons]

/-- The defaults walk descends through a group under an ordinal prefix,
creating no keys for the group itself. -/
theorem defaults_group_passthrough (f : Nat) (arg : Arg) (pre : String) (i : Nat) (dv : List (String × Value))
    (ht : arg.type = "group") :
    processArgsF (f+1) [arg] pre i dv =
      (match arg.contentList with
       | some l => processArgsF f l (pre ++ toString i ++ "_") 0 dv
       | none => dv) := by
  rw [processArgsF_singleton]
  unfold processOneStep
  rw [if_pos (by simp [ht])]

/-- A required repeatable primitive materializes one default-valued item
instance under the index-qualified key. -/
theorem default_repeatable_materializes (f : Nat) (arg : Arg) (pre : String) (i : Nat) (dv : List (String × Value))
    (hp : isPrimitiveKind arg.type = true) (hrep : arg.repeatable = true)
    (hopt : arg.optional = false)
    (hfc : dv.lookup (pre ++ getIdentifier arg ++ "_count") = none)
    (hfi : dv.lookup
      (pre ++ getIdentifier arg ++ "_" ++ toString (0:Nat) ++ "_" ++ getIdentifier arg) = none) :
    (processArgsF (f+2) [arg] pre i dv).lookup
      (pre ++ getIdentifier arg ++ "_" ++ toString (0:Nat) ++ "_" ++ getIdentifier arg) =
      some (.str "") := by
  have hflid : dvFlagStep arg (pre ++ getIdentifier arg) dv = dv := by
    unfold dvFlagStep
    rw [if_neg]
    simp [hopt]
  rw [processArgsF_singleton]
  unfold processOneStep
  rw [if_neg (by simp [isPrimitiveKind_ne_group _ hp])]
  rw [hflid]
  unfold dvKindStep
  simp only [hrep, if_true, hopt, Bool.false_eq_true, if_false]
  rw [dvInsert_self _ _ _ hfc]
  simp only [vCount, Int.toNat_one]
  rw [show List.range 1 = [0] from rfl]
  simp only [List.foldl_cons, List.foldl_nil]
  rw [processArgsF_singleton]
  unfold processOneStep
  rw [if_neg (by simp [Arg.type_withRepeatable, isPrimitiveKind_ne_group _ hp])]
  have hflid2 : ∀ kk d, dvFlagStep (arg.withRepeatable false) kk d = d := by
    intro kk d
    unfold dvFlagStep
    rw [if_neg]
    simp [Arg.optional_withRepeatable, hopt]
  rw [hflid2]
  unfold dvKindStep
  simp only [Arg.repeatable_withRepeatable, Bool.false_eq_true, if_false,
    Arg.type_withRepeatable, getIdentifier_withRepeatable]
  rw [if_pos hp]
  apply dvInsert_self
  rw [dvInsert_other]
  · exact hfi
  · exact item_ne_count _ _

/-- C3 (amended): the default value map of createNodeDefinition, one rule per
conjunct over the defaults walk `processArgsF`.  (1) An optional non-choice,
non-keyword, non-group argument defaults its enabled-flag key to false.
(2) An optional keyword's own key doubles as its flag and defaults to false,
and (3) so does a plain keyword's key.  (4) An optional choice defaults its
selection key to the sentinel `__none__`.  (5) A repeatable non-group
argument and (6) an Array argument default their count key to 0 when
optional and 1 otherwise.  (7) A primitive kind defaults to the empty
string.  (8) A required choice defaults to its first declared option's
identifier and (9) recursively materializes that option's own defaults.
(10) A group — the exception the counterexample forces — creates no keys of
its own (no enabled flag, no count): the walk descends into its children
under an ordinal prefix.  (11) A required repeatable primitive materializes
its one default-valued item instance under the index-qualified key. -/
theorem claim_C3 :
    (∀ (f : Nat) (arg : Arg) (pre : String) (i : Nat) (dv : List (String × Value)),
      arg.optional = true → arg.type ≠ "choice" → arg.type ≠ "keyword" →
      arg.type ≠ "group" →
      dv.lookup (pre ++ getIdentifier arg ++ "_enabled") = none →
      (processArgsF (f+1) [arg] pre i dv).lookup (pre ++ getIdentifier arg ++ "_enabled") =
        some (.bool false)) ∧
    (∀ (f : Nat) (arg : Arg) (pre : String) (i : Nat) (dv : List (String × Value)),
      arg.type = "keyword" → arg.optional = true →
      dv.lookup (pre ++ getIdentifier arg) = none →
      (processArgsF (f+1) [arg] pre i dv).lookup (pre ++ getIdentifier arg) =
        some (.bool false)) ∧
    (∀ (f : Nat) (arg : Arg) (pre : String) (i : Nat) (dv : List (String × Value)),
      arg.type = "keyword" → arg.optional = false → arg.repeatable = false →
      dv.lookup (pre ++ getIdentifier arg) = none →
      (processArgsF (f+1) [arg] pre i dv).lookup (pre ++ getIdentifier arg) =
        some (.bool false)) ∧
    (∀ (f : Nat) (arg : Arg) (pre : String) (i : Nat) (dv : List (String × Value)),
      arg.type = "choice" → arg.optional = true → arg.repeatable = false →
      dv.lookup (pre ++ getIdentifier arg) = none →
      (processArgsF (f+1) [arg] pre i dv).lookup (pre ++ getIdentifier arg) =
        some (.str "__none__")) ∧
    (∀ (f : Nat) (arg : Arg) (pre : String) (i : Nat) (dv : List (String × Value)),
      arg.type ≠ "group" → arg.repeatable = true →
      dv.lookup (pre ++ getIdentifier arg ++ "_count") = none →
      (processArgsF (f+1) [arg] pre i dv).lookup (pre ++ getIdentifier arg ++ "_count") =
        some (.num (if arg.optional then 0 else 1))) ∧
    (∀ (f : Nat) (arg : Arg) (pre : String) (i : Nat) (dv : List (String × Value)),
      arg.type = "Array" → arg.repeatable = false →
      dv.lookup (pre ++ getIdentifier arg ++ "_count") = none →
      (processArgsF (f+1) [arg] pre i dv).lookup (pre ++ getIdentifier arg ++ "_count") =
        some (.num (if arg.optional then 0 else 1))) ∧
    (∀ (f : Nat) (arg : Arg) (pre : String) (i : Nat) (dv : List (String × Value)),
      isPrimitiveKind arg.type = true → arg.repeatable = false →
      dv.lookup (pre ++ getIdentifier arg) = none →
      (processArgsF (f+1) [arg] pre i dv).lookup (pre ++ getIdentifier arg) =
        some (.str "")) ∧
    (∀ (f : Nat) (arg : Arg) (pre : String) (i : Nat) (dv : List (String × Value))
      (o : Arg) (rest : List Arg),
      arg.type = "choice" → arg.optional = false → arg.repeatable = false →
      arg.options = some (o :: rest) →
      dv.lookup (pre ++ getIdentifier arg) = none →
      (processArgsF (f+1) [arg] pre i dv).lookup (pre ++ getIdentifier arg) =
        some (.str (getIdentifier o))) ∧
    (∀ (f : Nat) (arg : Arg) (pre : String) (i : Nat) (dv : List (String × Value))
      (o : Arg) (rest : List Arg),
      arg.type = "choice" → arg.optional = false → arg.repeatable = false →
      arg.options = some (o :: rest) →
      dv.lookup (pre ++ getIdentifier arg) = none →
      processArgsF (f+1) [arg] pre i dv =
        processArgsF f [o.withName (some (getIdentifier o))]
          (pre ++ getIdentifier arg ++ "_") 0
          (dvInsert dv (pre ++ getIdentifier arg) (.str (getIdentifier o)))) ∧
    (∀ (f : Nat) (arg : Arg) (pre : String) (i : Nat) (dv : List (String × Value)),
      arg.type = "group" →
      processArgsF (f+1) [arg] pre i dv =
        (match arg.contentList with
         | some l => processArgsF f l (pre ++ toString i ++ "_") 0 dv
         | none => dv)) ∧
    (∀ (f : Nat) (arg : Arg) (pre : String) (i : Nat) (dv : List (String × Value)),
      isPrimitiveKind arg.type = true → arg.repeatable = true → arg.optional = false →
      dv.lookup (pre ++ getIdentifier arg ++ "_count") = none →
      dv.lookup (pre ++ getIdentifier arg ++ "_" ++ toString (0:Nat) ++ "_" ++
        getIdentifier arg) = none →
      (processArgsF (f+2) [arg] pre i dv).lookup
        (pre ++ getIdentifier arg ++ "_" ++ toString (0:Nat) ++ "_" ++ getIdentifier arg) =
        some (.str "")) := by
  refine ⟨?_, ?_, ?_, ?_, ?_, ?_, ?_, ?_, ?_, ?_, ?_⟩
  · intro f arg pre i dv h1 h2 h3 h4 h5
    exact default_enabled_flag f arg pre i dv h1 h2 h3 h4 h5
  · intro f arg pre i dv h1 h2 h3
    exact default_keyword_flag_opt f arg pre i dv h1 h2 h3
  · intro f arg pre i dv h1 h2 h3 h4
    exact default_keyword_plain f arg pre i dv h1 h2 h3 h4
  · intro f arg pre i dv h1 h2 h3 h4
    exact default_choice_none f arg pre i dv h1 h2 h3 h4
  · intro f arg pre i dv h1 h2 h3
    exact default_repeatable_count f arg pre i dv h1 h2 h3
  · intro f arg pre i dv h1 h2 h3
    exact default_array_count f arg pre i dv h1 h2 h3
  · intro f arg pre i dv h1 h2 h3
    exact default_primitive_empty f arg pre i dv h1 h2 h3
  · intro f arg pre i dv o rest h1 h2 h3 h4 h5
    exact default_choice_first f arg pre i dv o rest h1 h2 h3 h4 h5
  · intro f arg pre i dv o rest h1 h2 h3 h4 h5
    exact default_choice_materializes f arg pre i dv o rest h1 h2 h3 h4 h5
  · intro f arg pre i dv h1
    exact defaults_group_passthrough f arg pre i dv h1
  · intro f arg pre i dv h1 h2 h3 h4 h5
    exact default_repeatable_materializes f arg pre i dv h1 h2 h3 h4 h5

/-- Counterexample to C3 as stated: an optional group (identified by its
keyword child `foo`) is an optional non-choice, non-keyword node, yet the
computed default map contains no enabled-flag entry for it; likewise a
repeatable group gets no count key.  The defaults walk returns from the
group branch before the flag and repeatable handling. -/
theorem claim_C3_cex :
    grpOptC3.optional = true ∧ grpOptC3.type ≠ "choice" ∧ grpOptC3.type ≠ "keyword" ∧
    (createNodeDefinitionDV defC3).lookup (getIdentifier grpOptC3 ++ "_enabled") = none ∧
    grpRepC3.repeatable = true ∧
    (createNodeDefinitionDV defC3r).lookup (getIdentifier grpRepC3 ++ "_count") = none := by
  decide

/-- Witness for C3 on concrete arguments: a plain `String` primitive
defaults to the empty string, the optional choice `mode` defaults to the
sentinel, and the required repeatable `x` defaults its count to 1. -/
theorem claim_C3_witness :
    (processArgsF 1 [strArgX] "0_" 0 []).lookup "0_x" = some (.str "") ∧
    (processArgsF 1 [choiceArgS] "0_" 0 []).lookup "0_mode" = some (.str "__none__") ∧
    (processArgsF 1 [repArgC5] "0_" 0 []).lookup "0_x_count" = some (.num 1) := by
  refine ⟨?_, ?_, ?_⟩
  · exact claim_C3.2.2.2.2.2.2.1 0 strArgX "0_" 0 [] rfl rfl rfl
  · exact claim_C3.2.2.2.1 0 choiceArgS "0_" 0 [] rfl rfl rfl rfl
  · have e := claim_C3.2.2.2.2.1 0 repArgC5 "0_" 0 [] (by decide) rfl rfl
    simpa using e
